import Mathlib

/-!
Verification of the ScrapeStudio extraction pipeline.

This file is a shallow embedding, in Lean 4, of the core pipeline of the
ScrapeStudio repository:

* `scraper/content_router.py` (`ContentRouter._extract_single_field`,
  `ContentRouter._extract_custom_fields`, `ContentRouter.route_and_parse`),
* `scraper/fetcher_pool.py` (`FetcherPool.fetch_url`, `FetcherPool.fetch_all`),
* `scraper/searcher.py` (`run_pipeline`, `run_pipeline_on_html`),
* `rag_data_studio/main_application.py` (`ScrapeRunner.run`),
* `storage/database_inserter.py` (`DatabaseInserter.get_or_create_player`,
  `DatabaseInserter.insert_player_stats`).

Modelling conventions:

* Python dynamic values are modelled by the inductive type `PyVal`
  (None, str, int, float, list, dict).  Python floats are modelled as exact
  rationals; the database claims do no float arithmetic, only parsing and
  storing, so this is faithful for them.
* Python dicts are modelled as association lists in insertion order
  (CPython dicts preserve insertion order); assignment is `dictInsert`
  (overwrite in place, else append).
* HTML documents are modelled by the tree type `Elem`; the CSS machinery of
  BeautifulSoup/soupsieve is modelled by a small selector language
  `Selector` whose `select` returns the strict descendants of the context
  element matching the selector, in document (pre-order) order, which is
  the semantics of `Tag.select`.
* External library calls of the source (HTML parsing by BeautifulSoup,
  readability extraction by trafilatura, HTTP by requests) are modelled as
  oracle function parameters (`parse`, `trafi`, `net`).
* The thread pool of `FetcherPool.fetch_all` is modelled by evaluating the
  submitted tasks in submission order; each task is independent and the
  claims about it concern the multiset of outcomes, not their order.
* Exception handling is modelled explicitly where the source has it: the
  progress-callback type is `String -> Nat -> Except String Unit` and
  `updateProgress` swallows the error case exactly as the
  `try/except` around `progress_callback(...)` does.
-/

/-- A Python runtime value, as far as the pipeline manipulates them. -/
inductive PyVal where
  | none
  | str (s : String)
  | int (n : Int)
  | float (q : ℚ)
  | list (xs : List PyVal)
  | dict (kvs : List (String × PyVal))

/-- Python truthiness (`bool(v)`) for the values the pipeline tests. -/
def pyTruthy : PyVal → Bool
  | PyVal.none => false
  | PyVal.str s => s != ""
  | PyVal.int n => n != 0
  | PyVal.float q => q != 0
  | PyVal.list xs => !xs.isEmpty
  | PyVal.dict kvs => !kvs.isEmpty

/-- Truthiness of an `Optional[str]` (`None` and the empty string are falsy). -/
def pyTruthyOpt : Option String → Bool
  | Option.none => false
  | Option.some s => s != ""

mutual

/-- Python `str(v)`.  Exact for scalars; for containers the rendering
    approximates the `repr` (element quoting is omitted) — no claim in this
    development depends on the string form of a container. -/
def pyStr : PyVal → String
  | PyVal.none => "None"
  | PyVal.str s => s
  | PyVal.int n => toString n
  | PyVal.float q => toString q
  | PyVal.list xs => "[" ++ pyStrList xs ++ "]"
  | PyVal.dict kvs => "\x7b" ++ pyStrDict kvs ++ "\x7d"

def pyStrList : List PyVal → String
  | [] => ""
  | [x] => pyStr x
  | x :: xs => pyStr x ++ ", " ++ pyStrList xs

def pyStrDict : List (String × PyVal) → String
  | [] => ""
  | [kv] => kv.1 ++ ": " ++ pyStr kv.2
  | kv :: kvs => kv.1 ++ ": " ++ pyStr kv.2 ++ ", " ++ pyStrDict kvs

end

/-- Python `s.strip()`: drop leading and trailing whitespace.  (Defined on
    the character list so that it evaluates by `rfl` in the kernel.) -/
def pyStrip (s : String) : String :=
  String.mk
    (((s.data.dropWhile Char.isWhitespace).reverse.dropWhile
        Char.isWhitespace).reverse)

/-- Split a character list at a separator character. -/
def splitChars (sep : Char) : List Char → List (List Char)
  | [] => [[]]
  | c :: cs =>
      match splitChars sep cs with
      | [] => [[c]]
      | g :: gs => if c == sep then [] :: g :: gs else (c :: g) :: gs

/-- The whitespace-separated class list of a `class` attribute value. -/
def classList (s : String) : List String :=
  (splitChars ' ' s.data).map String.mk

/-- `d[k]` lookup in a Python dict modelled as an association list. -/
def pyGet (d : List (String × PyVal)) (k : String) : Option PyVal :=
  (d.find? (fun kv => kv.1 == k)).map (fun kv => kv.2)

/-- Python dict assignment `d[k] = v`: overwrite in place if the key exists,
    else append at the end (CPython insertion-order semantics). -/
def dictInsert (d : List (String × PyVal)) (k : String) (v : PyVal) :
    List (String × PyVal) :=
  if d.any (fun kv => kv.1 == k) then
    d.map (fun kv => if kv.1 == k then (k, v) else kv)
  else
    d ++ [(k, v)]

/-- The test `v is not None and v != ""` used by `_extract_custom_fields`
    to count the non-empty fields of a row (note that an empty Python list
    passes this test: `[] != ""` is true). -/
def pyNonNullNonEmptyStr : PyVal → Bool
  | PyVal.none => false
  | PyVal.str s => s != ""
  | _ => true

/-! ## The DOM model -/

/-- An HTML element: tag name, attributes, own text, child elements.
    (Text is attached to its element rather than interleaved with the
    children; the claims under study do not depend on interleaving.) -/
inductive Elem where
  | mk (tag : String) (attrs : List (String × String)) (ownText : String)
      (children : List Elem)

def Elem.tag : Elem → String
  | Elem.mk t _ _ _ => t

def Elem.attrs : Elem → List (String × String)
  | Elem.mk _ a _ _ => a

def Elem.ownText : Elem → String
  | Elem.mk _ _ t _ => t

def Elem.children : Elem → List Elem
  | Elem.mk _ _ _ cs => cs

/-- `elem.get(name)`: attribute lookup, `None` when absent. -/
def Elem.getAttr (e : Elem) (name : String) : Option String :=
  (e.attrs.find? (fun kv => kv.1 == name)).map (fun kv => kv.2)

mutual

/-- All text strings of the subtree rooted at an element, in document order. -/
def Elem.texts : Elem → List String
  | Elem.mk _ _ t cs => t :: Elem.textsList cs

def Elem.textsList : List Elem → List String
  | [] => []
  | c :: cs => Elem.texts c ++ Elem.textsList cs

end

/-- `elem.get_text(strip=True)`: join of the individually stripped text
    strings of the subtree. -/
def getTextStrip (e : Elem) : String :=
  String.join (e.texts.map pyStrip)

def Elem.attrsHtml : List (String × String) → String
  | [] => ""
  | kv :: kvs => " " ++ kv.1 ++ "=" ++ kv.2 ++ Elem.attrsHtml kvs

mutual

/-- `str(elem)`: the serialized markup of the element. -/
def Elem.toHtml : Elem → String
  | Elem.mk t attrs txt cs =>
      "<" ++ t ++ Elem.attrsHtml attrs ++ ">" ++ txt ++ Elem.toHtmlList cs
        ++ "</" ++ t ++ ">"

def Elem.toHtmlList : List Elem → String
  | [] => ""
  | c :: cs => Elem.toHtml c ++ Elem.toHtmlList cs

end

mutual

/-- The strict descendants of an element, in document (pre-order) order. -/
def Elem.descendants : Elem → List Elem
  | Elem.mk _ _ _ cs => Elem.descList cs

def Elem.descList : List Elem → List Elem
  | [] => []
  | c :: cs => c :: Elem.descendants c ++ Elem.descList cs

end

/-- The selector language: tag selectors, class selectors, universal.
    This models the fragment of CSS the claims need; `select` below gives it
    the soupsieve semantics (match over strict descendants, document order). -/
inductive Selector where
  | tag (t : String)
  | cls (c : String)
  | universal

def Selector.matchesElem : Selector → Elem → Bool
  | Selector.tag t, e => e.tag == t
  | Selector.cls c, e =>
      (classList ((e.getAttr "class").getD "")).contains c
  | Selector.universal, _ => true

/-- `context.select(selector)`: all matching strict descendants, in document
    order. -/
def select (ctx : Elem) (sel : Selector) : List Elem :=
  (Elem.descendants ctx).filter (fun e => sel.matchesElem e)

/-- `context.select_one(selector)`. -/
def selectOne (ctx : Elem) (sel : Selector) : Option Elem :=
  (select ctx sel).head?

/-! ## Configuration model (`scraper/config_manager.py`) -/

/-- `CustomFieldConfig`: one extraction rule.  `sub_selectors` is `[]` where
    the Python model has `None`. -/
inductive CustomFieldConfig where
  | mk (name : String) (selector : Selector) (extract_type : String)
      (attribute_name : Option String) (is_list : Bool) (required : Bool)
      (sub_selectors : List CustomFieldConfig)

def CustomFieldConfig.name : CustomFieldConfig → String
  | CustomFieldConfig.mk n _ _ _ _ _ _ => n

def CustomFieldConfig.selector : CustomFieldConfig → Selector
  | CustomFieldConfig.mk _ s _ _ _ _ _ => s

def CustomFieldConfig.extract_type : CustomFieldConfig → String
  | CustomFieldConfig.mk _ _ t _ _ _ _ => t

def CustomFieldConfig.attribute_name : CustomFieldConfig → Option String
  | CustomFieldConfig.mk _ _ _ a _ _ _ => a

def CustomFieldConfig.is_list : CustomFieldConfig → Bool
  | CustomFieldConfig.mk _ _ _ _ il _ _ => il

def CustomFieldConfig.sub_selectors : CustomFieldConfig → List CustomFieldConfig
  | CustomFieldConfig.mk _ _ _ _ _ _ subs => subs

structure SelectorConfig where
  title : Option Selector := Option.none
  main_content : Option Selector := Option.none
  custom_fields : List CustomFieldConfig := []

structure SourceConfig where
  name : String
  seeds : List String
  source_type : Option String
  selectors : SelectorConfig

structure DomainScrapeConfig where
  sources : List SourceConfig

/-- Python `a or b` for an optional string `a` and a string default `b`
    (used as `source.source_type or source.name`). -/
def pyOrStr (a : Option String) (b : String) : String :=
  match a with
  | Option.some s => if s != "" then s else b
  | Option.none => b

/-! ## Extractor (`scraper/content_router.py`) -/

/-- `ContentRouter._extract_single_field(context, config)`.
    The `try/except` of the source catches selector exceptions; in this
    model `select` is total, so the handler has no effect. -/
def extractSingleField (ctx : Elem) (cfg : CustomFieldConfig) : PyVal :=
  let elements := select ctx cfg.selector
  if elements.isEmpty then
    (if cfg.is_list then PyVal.list [] else PyVal.none)
  else
    let values := elements.filterMap (fun elem =>
      let value : Option String :=
        if cfg.extract_type == "text" then
          Option.some (getTextStrip elem)
        else if cfg.extract_type == "attribute"
            && pyTruthyOpt cfg.attribute_name then
          elem.getAttr (cfg.attribute_name.getD "")
        else if cfg.extract_type == "html" then
          Option.some (Elem.toHtml elem)
        else
          Option.none
      match value with
      | Option.some s => if s != "" then Option.some s else Option.none
      | Option.none => Option.none)
    match values with
    | [] => if cfg.is_list then PyVal.list [] else PyVal.none
    | v :: vs =>
        if cfg.is_list then PyVal.list ((v :: vs).map PyVal.str)
        else PyVal.str v

/-- The per-container row of a structured list: `item_data` is a dict
    assigned one entry per sub-rule (`item_data[sub_field_name] = sub_value`,
    always, even when the value is `None`). -/
def itemData (container : Elem) (subs : List CustomFieldConfig) :
    List (String × PyVal) :=
  subs.foldl
    (fun acc sub => dictInsert acc sub.name (extractSingleField container sub))
    []

/-- `non_empty_fields = sum(1 for v in item_data.values() if v is not None and v != "")`. -/
def nonEmptyFieldCount (row : List (String × PyVal)) : Nat :=
  (row.map (fun kv => kv.2)).countP pyNonNullNonEmptyStr

/-- The `structured_list` branch of `ContentRouter._extract_custom_fields`:
    select the containers, build one row dict per container, append the row
    to the result only when it has at least one non-empty field. -/
def extractStructuredList (doc : Elem) (cfg : CustomFieldConfig) : PyVal :=
  let containers := select doc cfg.selector
  if containers.isEmpty then
    PyVal.list []
  else
    PyVal.list (containers.foldl
      (fun acc container =>
        let row := itemData container cfg.sub_selectors
        if 0 < nonEmptyFieldCount row then acc ++ [PyVal.dict row] else acc)
      [])

/-- `ContentRouter._extract_custom_fields(soup, config)`. -/
def extractCustomFields (doc : Elem) (cfg : SourceConfig) :
    List (String × PyVal) :=
  if cfg.selectors.custom_fields.isEmpty then []
  else
    cfg.selectors.custom_fields.foldl
      (fun acc fc =>
        if fc.extract_type == "structured_list" then
          dictInsert acc fc.name (extractStructuredList doc fc)
        else
          dictInsert acc fc.name (extractSingleField doc fc))
      []

/-! ## Items and routing (`scraper/rag_models.py`, `route_and_parse`) -/

structure FetchedItem where
  source_url : String
  content : Option String
  source_type : String
  query_used : String
  title : Option String

structure ParsedItem where
  source_url : String
  source_type : String
  query_used : String
  title : Option String
  main_text_content : Option String
  custom_fields : List (String × PyVal)

structure SDItem where
  source_url : String
  source_type : String
  query_used : String
  title : Option String
  structured_data : List (String × PyVal)
  unstructured_text : Option String

/-- Title resolution of `route_and_parse`: keep a truthy fetched title, else
    select `config.selectors.title or 'title'` and take its stripped text,
    else keep the original (possibly absent) title. -/
def resolveTitle (soup : Elem) (cfg : SourceConfig) (t0 : Option String) :
    Option String :=
  if pyTruthyOpt t0 then t0
  else
    let sel := (cfg.selectors.title).getD (Selector.tag "title")
    match selectOne soup sel with
    | Option.some tag => Option.some (getTextStrip tag)
    | Option.none => t0

/-- Main-text resolution of `route_and_parse`: explicit main-content selector
    first, else the trafilatura oracle on the raw content. -/
def resolveMainText (trafi : String → Option String) (soup : Elem)
    (cfg : SourceConfig) (content : String) : Option String :=
  let mt0 : Option String :=
    match cfg.selectors.main_content with
    | Option.some sel => (selectOne soup sel).map getTextStrip
    | Option.none => Option.none
  if pyTruthyOpt mt0 then mt0 else trafi content

/-- `ContentRouter.route_and_parse(item, config)`.  `parse` is the
    BeautifulSoup oracle; link extraction is omitted (no claim concerns it). -/
def routeAndParse (parse : String → Elem) (trafi : String → Option String)
    (item : FetchedItem) (cfg : SourceConfig) : Option ParsedItem :=
  match item.content with
  | Option.none => Option.none
  | Option.some content =>
    if content == "" then Option.none
    else
      let soup := parse content
      Option.some
        { source_url := item.source_url
          source_type := item.source_type
          query_used := item.query_used
          title := resolveTitle soup cfg item.title
          main_text_content := resolveMainText trafi soup cfg content
          custom_fields := extractCustomFields soup cfg }

/-! ## Pipeline (`scraper/fetcher_pool.py`, `scraper/searcher.py`) -/

/-- `PipelineMetrics`: the `metrics` dict of `run_pipeline`. -/
structure Metrics where
  urls_fetched : Nat
  items_extracted : Nat
  errors : List String
deriving DecidableEq

/-- A progress callback; the `Except` models that a callback may raise
    (as `ScrapeRunner.run` raises `UserCancelledError` from its callback). -/
def ProgressCallback : Type := String → Nat → Except String Unit

/-- `update_progress` of `run_pipeline` / `run_pipeline_on_html`: the call
    to the callback is wrapped in `try/except Exception`, so every callback
    error — including `UserCancelledError` — is swallowed and only logged. -/
def updateProgress (cb : ProgressCallback) (msg : String) (percent : Nat) :
    Unit :=
  match cb msg percent with
  | Except.ok _ => ()
  | Except.error _ => ()

/-- `FetcherPool.fetch_url(url, source_type, query_used)`.  `net` is the
    HTTP oracle: `none` models a non-2xx status or network failure, in which
    case the source logs the error and returns `None` — no error is recorded
    anywhere else. -/
def fetchUrl (net : String → Option String) (url source_type query_used :
    String) : Option FetchedItem :=
  match net url with
  | Option.some text =>
      Option.some
        { source_url := url, content := Option.some text,
          source_type := source_type, query_used := query_used,
          title := Option.none }
  | Option.none => Option.none

/-- `FetcherPool.fetch_all(tasks)`: one `fetch_url` per task; `None` results
    are dropped.  (`as_completed` returns futures in completion order; the
    model keeps submission order, which fixes one of the permitted orders.) -/
def fetchAll (net : String → Option String)
    (tasks : List (String × String × String)) : List FetchedItem :=
  tasks.filterMap (fun t => fetchUrl net t.1 t.2.1 t.2.2)

/-- The per-fetched-item emission step of `run_pipeline`:
    `if parsed_item and parsed_item.custom_fields:` build a
    `StructuredDataItem` carrying `structured_data = parsed_item.custom_fields`. -/
def emitItem (parse : String → Elem) (trafi : String → Option String)
    (fi : FetchedItem) (src : SourceConfig) : Option SDItem :=
  match routeAndParse parse trafi fi src with
  | Option.some p =>
      if !p.custom_fields.isEmpty then
        Option.some
          { source_url := p.source_url, source_type := p.source_type,
            query_used := p.query_used, title := p.title,
            structured_data := p.custom_fields,
            unstructured_text := p.main_text_content }
      else Option.none
  | Option.none => Option.none

/-- The fetch tasks of one source: `(str(seed), source_type or name, name)`. -/
def sourceTasks (src : SourceConfig) : List (String × String × String) :=
  src.seeds.map (fun seed => (seed, pyOrStr src.source_type src.name, src.name))

/-- `run_pipeline(config_path, progress_callback)`.  The `ConfigManager`
    load is modelled by the `Option DomainScrapeConfig` argument.  Per-item
    parse exceptions and fetch-phase exceptions cannot occur in the total
    model, so the corresponding `except` branches contribute no errors. -/
def runPipeline (parse : String → Elem) (trafi : String → Option String)
    (net : String → Option String) (cb : ProgressCallback)
    (cfgOpt : Option DomainScrapeConfig) : List SDItem × Metrics :=
  let _ := updateProgress cb "Loading configuration..." 5
  match cfgOpt with
  | Option.none =>
      ([], { urls_fetched := 0, items_extracted := 0,
             errors := ["Failed to load or parse configuration file."] })
  | Option.some cfg =>
      let res := cfg.sources.foldl
        (fun (acc : List SDItem × Nat) src =>
          let tasks := sourceTasks src
          if tasks.isEmpty then acc
          else
            let fetched := fetchAll net tasks
            let items := fetched.filterMap
              (fun fi => emitItem parse trafi fi src)
            (acc.1 ++ items, acc.2 + fetched.length))
        ([], 0)
      let _ := updateProgress cb "Pipeline finished." 95
      (res.1,
       { urls_fetched := res.2, items_extracted := res.1.length, errors := [] })

/-- `run_pipeline_on_html(config_path, html_content, progress_callback)`. -/
def runPipelineOnHtml (parse : String → Elem)
    (trafi : String → Option String) (cb : ProgressCallback)
    (cfgOpt : Option DomainScrapeConfig) (html : String) :
    List SDItem × Metrics :=
  let _ := updateProgress cb "Loading configuration..." 10
  match cfgOpt with
  | Option.none =>
      ([], { urls_fetched := 1, items_extracted := 0,
             errors := ["Failed to load configuration."] })
  | Option.some cfg =>
      let _ := updateProgress cb "Validating HTML content..." 20
      if html == "" || (pyStrip html).length < 100 then
        ([], { urls_fetched := 1, items_extracted := 0,
               errors := ["HTML content is empty or too short."] })
      else
        match cfg.sources with
        | [] =>
            ([], { urls_fetched := 1, items_extracted := 0,
                   errors := ["No sources defined in config."] })
        | source :: _ =>
            let dummy_url :=
              source.seeds.headD "https://example.com/scraped-content"
            let fetched : FetchedItem :=
              { source_url := dummy_url, content := Option.some html,
                source_type := pyOrStr source.source_type source.name,
                query_used := "direct_html_content",
                title := Option.some "Browser Content" }
            let items :=
              match emitItem parse trafi fetched source with
              | Option.some it => [it]
              | Option.none => []
            (items, { urls_fetched := 1, items_extracted := items.length,
                      errors := [] })

/-! ## `ScrapeRunner` (`rag_data_studio/main_application.py`) -/

/-- What `ScrapeRunner.run` emits at the end: the `finished` signal, the
    `error` signal, or nothing at all. -/
inductive RunnerSignal where
  | finished (status : String)
  | error (message : String)
  | silent
deriving DecidableEq

/-- The `progress_callback` closure of `ScrapeRunner.run`: raises
    `UserCancelledError` when interruption was requested. -/
def scrapeRunnerCallback (interrupted : Bool) : ProgressCallback :=
  fun _ _ =>
    if interrupted then Except.error "Scrape cancelled by user"
    else Except.ok ()

/-- `ScrapeRunner.run`.  `interrupted` is `self._is_interrupted`, modelled
    constant over the run (set before the first progress point — the
    earliest possible cancellation).  The `except UserCancelledError` branch
    of the source, which would emit the `error` signal, is unreachable:
    `update_progress` swallows every exception the callback raises, so the
    pipeline always returns normally; when `interrupted` is set, the final
    `if not self._is_interrupted` guard then suppresses the `finished`
    signal and no signal at all is emitted. -/
def scrapeRunnerRun (parse : String → Elem) (trafi : String → Option String)
    (net : String → Option String) (cfgOpt : Option DomainScrapeConfig)
    (html_content : Option String) (interrupted : Bool) :
    (List SDItem × Metrics) × RunnerSignal :=
  let cb := scrapeRunnerCallback interrupted
  let res :=
    if pyTruthyOpt html_content then
      runPipelineOnHtml parse trafi cb cfgOpt (html_content.getD "")
    else
      runPipeline parse trafi net cb cfgOpt
  (res, if !interrupted then RunnerSignal.finished "success"
        else RunnerSignal.silent)

/-! ## Relational sink (`storage/database_inserter.py`) -/

/-- Value of a digit string. -/
def digitsVal (ds : List Char) : ℚ :=
  ds.foldl (fun acc c => acc * 10 + ((c.toNat - '0'.toNat : Nat) : ℚ)) 0

/-- Python `float(s)` on the strings this pipeline feeds it: an optional
    sign, digits with at most one decimal point, at least one digit.
    (Exotic accepted spellings — exponents, `inf`, `nan`, underscores — are
    mapped to failure; the sink never meets them because its cleaner keeps
    only digits, `.` and `-`.) -/
def pyFloat? (s : String) : Option ℚ :=
  let step : Bool × List Char → Option ℚ := fun (neg, rest) =>
    let sign : ℚ := if neg then -1 else 1
    if rest.isEmpty then Option.none
    else if !rest.all (fun c => c.isDigit || c == '.') then Option.none
    else
      match (rest.filter (fun c => c == '.')).length with
      | 0 => Option.some (sign * digitsVal rest)
      | 1 =>
          let ip := rest.takeWhile (fun c => c != '.')
          let fp := (rest.dropWhile (fun c => c != '.')).tail
          if ip.isEmpty && fp.isEmpty then Option.none
          else
            Option.some
              (sign * (digitsVal ip + digitsVal fp / (10 : ℚ) ^ fp.length))
      | _ => Option.none
  match s.data with
  | '-' :: r => step (true, r)
  | '+' :: r => step (false, r)
  | r => step (false, r)

/-- `safe_convert_number(val, default)` of `insert_player_stats`: `None` and
    the empty string give the default; strings are cleaned to digits, `.`
    and `-`, and parsed if the cleaned form is non-empty and not `"-"`, else
    the raw string is parsed; numbers pass through as floats; everything
    else (and every parse failure) gives the default. -/
def safeConvertNumber (val dflt : PyVal) : PyVal :=
  match val with
  | PyVal.none => dflt
  | PyVal.str s =>
      if s == "" then dflt
      else
        let cleaned :=
          String.mk (s.data.filter (fun c => c.isDigit || c == '.' || c == '-'))
        if cleaned != "" && cleaned != "-" then
          match pyFloat? cleaned with
          | Option.some q => PyVal.float q
          | Option.none => dflt
        else
          match pyFloat? s with
          | Option.some q => PyVal.float q
          | Option.none => dflt
  | PyVal.int n => PyVal.float (n : ℚ)
  | PyVal.float q => PyVal.float q
  | _ => dflt

/-- The prioritized candidate key names for the entity name. -/
def priorityNameFields : List String := ["player", "player_name", "elorank", "name"]

/-- The first priority field that is present and truthy, as a stripped
    string. -/
def priorityName (rd : List (String × PyVal)) : Option String :=
  priorityNameFields.findSome? (fun f =>
    match pyGet rd f with
    | Option.some v =>
        if pyTruthy v then Option.some (pyStrip (pyStr v)) else Option.none
    | Option.none => Option.none)

/-- The fallback: the first string-valued field that is non-empty, longer
    than one character and contains a letter, stripped. -/
def fallbackName (rd : List (String × PyVal)) : Option String :=
  rd.findSome? (fun kv =>
    match kv.2 with
    | PyVal.str s =>
        if s != "" && 1 < s.length && s.data.any Char.isAlpha then
          Option.some (pyStrip s)
        else Option.none
    | _ => Option.none)

/-- The full `player_name` derivation of `insert_player_stats`: the priority
    pass, then — when that produced nothing truthy — the fallback pass, then
    the final `if not player_name: continue` test. -/
def derivedName (rd : List (String × PyVal)) : Option String :=
  let p1 := priorityName rd
  let p2 := if pyTruthyOpt p1 then p1 else fallbackName rd
  if pyTruthyOpt p2 then p2 else Option.none

/-- A processable row: it must be a dict (`isinstance(row_data, dict)`) with
    a derivable entity name; everything else is logged and skipped. -/
def rowKey : PyVal → Option (String × List (String × PyVal))
  | PyVal.dict rd => (derivedName rd).map (fun n => (n, rd))
  | _ => Option.none

/-- Destination columns converted with `safe_convert_number(value)`. -/
def floatColsDB : List String :=
  ["age", "elo_rating", "helo_rating", "celo_rating", "gelo_rating",
   "peak_elo", "log_diff"]

/-- Destination columns converted with `safe_convert_number(value, 0)`. -/
def rankColsDB : List String :=
  ["elo_rank", "helo_rank", "celo_rank", "gelo_rank", "wta_rank"]

/-- The explicit scraper-field → destination-column translation table. -/
def fieldMapping : List (String × String) :=
  [("elorank", "elo_rank"), ("age", "age"), ("elo", "elo_rating"),
   ("helorank", "helo_rank"), ("helo", "helo_rating"),
   ("celorank", "celo_rank"), ("celo", "celo_rating"),
   ("gelorank", "gelo_rank"), ("gelo", "gelo_rating"),
   ("peakelo", "peak_elo"), ("peakmonth", "peak_month"),
   ("wtarank", "wta_rank"), ("logdiff", "log_diff")]

/-- Conversion of a mapped value for its destination column. -/
def mappedVal (df : String) (v : PyVal) : PyVal :=
  if floatColsDB.contains df then safeConvertNumber v PyVal.none
  else if rankColsDB.contains df then safeConvertNumber v (PyVal.int 0)
  else if pyTruthy v then PyVal.str (pyStr v) else PyVal.none

def PyVal.isNone : PyVal → Bool
  | PyVal.none => true
  | _ => false

/-- `data_to_insert` of `insert_player_stats`: the five base fields, the
    mapped fields in the order of `field_mapping`, with `None` values
    filtered out at the end. -/
def buildCols (pid : Nat) (pname today : String)
    (rd : List (String × PyVal)) : List (String × PyVal) :=
  let base : List (String × PyVal) :=
    [("player_id", PyVal.int (pid : Int)), ("player_name", PyVal.str pname),
     ("stat_date", PyVal.str today), ("surface", PyVal.str "all"),
     ("timeframe", PyVal.str "current")]
  let full := fieldMapping.foldl
    (fun acc sfdf =>
      match pyGet rd sfdf.1 with
      | Option.some v => dictInsert acc sfdf.2 (mappedVal sfdf.2 v)
      | Option.none => acc)
    base
  full.filter (fun kv => !kv.2.isNone)

/-- One row of the `player_statistics` table.  The upsert key of the schema
    is `UNIQUE(player_id, stat_date, surface, timeframe)`; `cols` is the
    inserted column map. -/
structure StatsRow where
  playerId : Nat
  statDate : String
  surface : String
  timeframe : String
  cols : List (String × PyVal)

/-- The `UNIQUE(player_id, stat_date, surface, timeframe)` conflict test. -/
def StatsRow.sameKey (a b : StatsRow) : Bool :=
  a.playerId == b.playerId && a.statDate == b.statDate
    && a.surface == b.surface && a.timeframe == b.timeframe

/-- One observable database action of the sink, plus transaction commits. -/
inductive DBEvent where
  | insertPlayer (name : String)
  | insertStats (playerId : Nat) (cols : List (String × PyVal))
  | commit

/-- The SQLite store as the sink sees it: the `players` table (rowid, name),
    the next AUTOINCREMENT rowid, the `player_statistics` table, and the
    ordered event log of inserts and commits. -/
structure DBState where
  players : List (Nat × String)
  nextId : Nat
  stats : List StatsRow
  log : List DBEvent

/-- A fresh store (SQLite AUTOINCREMENT rowids start at 1). -/
def dbInit : DBState :=
  { players := [], nextId := 1, stats := [], log := [] }

/-- `DatabaseInserter.get_or_create_player(player_name)`: exact-name lookup;
    on a miss, insert the player and `self.conn.commit()` immediately. -/
def getOrCreatePlayer (st : DBState) (name : String) : Nat × DBState :=
  match st.players.find? (fun p => p.2 == name) with
  | Option.some p => (p.1, st)
  | Option.none =>
      (st.nextId,
       { players := st.players ++ [(st.nextId, name)],
         nextId := st.nextId + 1, stats := st.stats,
         log := st.log ++ [DBEvent.insertPlayer name, DBEvent.commit] })

/-- `INSERT OR REPLACE INTO player_statistics ...`: on a key conflict the
    old row is deleted and the new row inserted. -/
def upsertStats (s : List StatsRow) (r : StatsRow) : List StatsRow :=
  s.filter (fun q => !q.sameKey r) ++ [r]

/-- The per-row body of `insert_player_stats`: skip non-dict rows and rows
    without a derivable name; get-or-create the player; build the column
    map; skip when it has at most 4 columns ("not enough data"); else
    upsert. -/
def processRow (today : String) (st : DBState) (row : PyVal) : DBState :=
  match rowKey row with
  | Option.none => st
  | Option.some (n, rd) =>
      let pr := getOrCreatePlayer st n
      let cols := buildCols pr.1 n today rd
      if cols.length ≤ 4 then pr.2
      else
        { pr.2 with
          stats := upsertStats pr.2.stats
            { playerId := pr.1, statDate := today, surface := "all",
              timeframe := "current", cols := cols },
          log := pr.2.log ++ [DBEvent.insertStats pr.1 cols] }

/-- The `main_data_list` search of `insert_player_stats`: the first value of
    `structured_data` satisfying `isinstance(value, list) and value`. -/
def findMainList : List (String × PyVal) → Option (List PyVal)
  | [] => Option.none
  | (_, v) :: rest =>
      match v with
      | PyVal.list xs => if xs.isEmpty then findMainList rest else Option.some xs
      | _ => findMainList rest

/-- The per-item body of `insert_player_stats`: skip items without a row
    list, else process each row. -/
def processItem (today : String) (st : DBState) (item : SDItem) : DBState :=
  match findMainList item.structured_data with
  | Option.none => st
  | Option.some rows => rows.foldl (processRow today) st

/-- `DatabaseInserter.insert_player_stats(items)`: process every item, then
    `self.conn.commit()` once at the end.  `today` is
    `date.today().isoformat()`, constant over the call. -/
def insertPlayerStats (st : DBState) (today : String) (items : List SDItem) :
    DBState :=
  let st1 := items.foldl (processItem today) st
  { st1 with log := st1.log ++ [DBEvent.commit] }

/-! ## Specification-side definitions

The following definitions are written from the words of the specification
claims (not from the source); the theorems below compare them with the
source translations above. -/

/-- The value `_extract_custom_fields` stores for a field. -/
def fieldValue (doc : Elem) (fc : CustomFieldConfig) : PyVal :=
  if fc.extract_type == "structured_list" then extractStructuredList doc fc
  else extractSingleField doc fc

/-- Claim C1: the per-container map, one entry per child rule, each child
    resolved against the container element. -/
def rowSpec (c : Elem) (subs : List CustomFieldConfig) :
    List (String × PyVal) :=
  subs.map (fun s => (s.name, extractSingleField c s))

/-- A row is kept when at least one child value passes the source's
    non-empty test (`v is not None and v != ""`). -/
def rowKeptSpec (row : List (String × PyVal)) : Bool :=
  row.any (fun kv => pyNonNullNonEmptyStr kv.2)

/-- Claim C1 (amended): the value of a structured_list rule is the ordered
    list, over the matched containers in document order, of the
    per-container maps, keeping exactly the rows with a non-empty field. -/
def structuredListSpec (doc : Elem) (r : CustomFieldConfig) : PyVal :=
  PyVal.list
    ((((select doc r.selector).map (fun c => rowSpec c r.sub_selectors)).filter
        rowKeptSpec).map PyVal.dict)

/-- A value that is null or empty in the sense of claim C1 (`None`, the
    empty string, or an empty list). -/
def valueNullOrEmpty : PyVal → Bool
  | PyVal.none => true
  | PyVal.str "" => true
  | PyVal.list [] => true
  | _ => false

/-- Claim C2: the per-element candidate value of a non-list rule (trimmed
    text / named attribute, absent attribute yielding no candidate / full
    markup). -/
def candidateOf (cfg : CustomFieldConfig) (elem : Elem) : Option String :=
  if cfg.extract_type == "text" then Option.some (getTextStrip elem)
  else if cfg.extract_type == "attribute" && pyTruthyOpt cfg.attribute_name then
    elem.getAttr (cfg.attribute_name.getD "")
  else if cfg.extract_type == "html" then Option.some (Elem.toHtml elem)
  else Option.none

/-- A candidate survives only when it is neither absent nor empty. -/
def nonEmptyCandidate (cfg : CustomFieldConfig) (elem : Elem) : Option String :=
  match candidateOf cfg elem with
  | Option.some s => if s != "" then Option.some s else Option.none
  | Option.none => Option.none

/-- Claim C2 (amended): the value of a non-list rule is the first
    non-empty candidate over the matched elements, else null. -/
def firstMatchValueSpec (ctx : Elem) (cfg : CustomFieldConfig) : PyVal :=
  match (select ctx cfg.selector).filterMap (nonEmptyCandidate cfg) with
  | [] => PyVal.none
  | s :: _ => PyVal.str s

/-- Claim C3 (amended): a fetched page with truthy content emits an item iff
    its extracted custom-fields dict has at least one key. -/
def pageEmits (parse : String → Elem) (src : SourceConfig) (content : String) :
    Bool :=
  content != "" && !(extractCustomFields (parse content) src).isEmpty

/-- Claim C5: a non-empty list value. -/
def pyIsNonEmptyList : PyVal → Bool
  | PyVal.list xs => !xs.isEmpty
  | _ => false

def pyListElems : PyVal → List PyVal
  | PyVal.list xs => xs
  | _ => []

/-- Claim C5 (as stated): a non-empty list of maps. -/
def pyIsListOfMaps : PyVal → Bool
  | PyVal.list xs =>
      !xs.isEmpty && xs.all (fun x =>
        match x with
        | PyVal.dict _ => true
        | _ => false)
  | _ => false

/-- Claim C5 (as stated): the first field whose value is a non-empty list
    of maps. -/
def firstListOfMapsField (d : List (String × PyVal)) :
    Option (String × PyVal) :=
  d.find? (fun kv => pyIsListOfMaps kv.2)

def isCommitEvt : DBEvent → Bool
  | DBEvent.commit => true
  | _ => false

/-- Number of transaction commits in an event log. -/
def countCommits (l : List DBEvent) : Nat :=
  (l.filter isCommitEvt).length

/-- The keys of the five always-present base columns of `data_to_insert`. -/
def baseKeys : List String :=
  ["player_id", "player_name", "stat_date", "surface", "timeframe"]

/-! ## Proof-side decomposition of the sink

`rowsActions` separates a run of `insert_player_stats` into its effect on
the `players` table and the ordered list of statistics upserts it performs;
the theorems below prove it equivalent to the direct fold of `processRow`. -/

abbrev Players := List (Nat × String)

def findP (ps : Players) (n : String) : Option (Nat × String) :=
  ps.find? (fun p => p.2 == n)

def rowsActions (today : String) :
    Players → Nat → List PyVal → Players × Nat × List StatsRow
  | ps, nid, [] => (ps, nid, [])
  | ps, nid, row :: rest =>
    match rowKey row with
    | Option.none => rowsActions today ps nid rest
    | Option.some (n, rd) =>
      let trip : Nat × Players × Nat :=
        match findP ps n with
        | Option.some p => (p.1, ps, nid)
        | Option.none => (nid, ps ++ [(nid, n)], nid + 1)
      let cols := buildCols trip.1 n today rd
      let r := rowsActions today trip.2.1 trip.2.2 rest
      if cols.length ≤ 4 then r
      else
        (r.1, r.2.1,
         { playerId := trip.1, statDate := today, surface := "all",
           timeframe := "current", cols := cols } :: r.2.2)

/-- Apply a list of upserts in order. -/
def applyUps (S : List StatsRow) (L : List StatsRow) : List StatsRow :=
  L.foldl upsertStats S

/-- The row list an item contributes (empty when it is skipped). -/
def itemRows (item : SDItem) : List PyVal :=
  (findMainList item.structured_data).getD []

/-- All rows processed by one `insert_player_stats` call, in order. -/
def flatRows (items : List SDItem) : List PyVal :=
  items.flatMap itemRows

/-! ## Concrete fixtures for the counterexamples and witnesses -/

/-- A trivial trafilatura oracle (extraction finds nothing). -/
def trafiNone : String → Option String := fun _ => Option.none

/-- A progress callback that never raises. -/
def cbOk : ProgressCallback := fun _ _ => Except.ok ()

/-- C1 counterexample fixture: a structured_list rule whose only child is an
    `is_list` rule matching nothing inside the container. -/
def subC1x : CustomFieldConfig :=
  CustomFieldConfig.mk "vals" (Selector.tag "li") "text" Option.none true
    false []

def ruleC1x : CustomFieldConfig :=
  CustomFieldConfig.mk "table" (Selector.tag "tr") "structured_list"
    Option.none false false [subC1x]

def docC1x : Elem :=
  Elem.mk "html" [] "" [Elem.mk "tr" [] "" [Elem.mk "td" [] "x" []]]

def cfgC1x : SourceConfig :=
  { name := "s", seeds := [], source_type := Option.none,
    selectors := { custom_fields := [ruleC1x] } }

/-- C1 witness fixture: the scores-table scenario of the specification —
    three data rows and one header row without matching cells. -/
def trDataW (n s : String) : Elem :=
  Elem.mk "tr" [] ""
    [Elem.mk "td" [("class", "name")] n [],
     Elem.mk "td" [("class", "score")] s []]

def trHeadW : Elem := Elem.mk "tr" [] "" [Elem.mk "th" [] "Name" []]

def docW : Elem :=
  Elem.mk "html" [] ""
    [Elem.mk "table" [] ""
      [trHeadW, trDataW "A" "1", trDataW "B" "2", trDataW "C" "3"]]

def rW : CustomFieldConfig :=
  CustomFieldConfig.mk "table_data" (Selector.tag "tr") "structured_list"
    Option.none false false
    [CustomFieldConfig.mk "name" (Selector.cls "name") "text" Option.none
       false false [],
     CustomFieldConfig.mk "score" (Selector.cls "score") "text" Option.none
       false false []]

def cfgW : SourceConfig :=
  { name := "scores", seeds := [], source_type := Option.none,
    selectors := { custom_fields := [rW] } }

/-- C2 fixture: an attribute rule whose first matched element lacks the
    attribute while the second carries it. -/
def ruleC2attr : CustomFieldConfig :=
  CustomFieldConfig.mk "link" (Selector.tag "a") "attribute"
    (Option.some "href") false false []

def elemA1 : Elem := Elem.mk "a" [] "" []

def docC2x : Elem :=
  Elem.mk "html" [] "" [elemA1, Elem.mk "a" [("href", "x")] "" []]

/-- C3 fixture: one rule matching nothing, HTML long enough to pass the
    length gate. -/
def fldC3 : CustomFieldConfig :=
  CustomFieldConfig.mk "f" (Selector.tag "li") "text" Option.none false
    false []

def srcC3 : SourceConfig :=
  { name := "s3", seeds := ["https://e.x/"], source_type := Option.some "tennis",
    selectors := { custom_fields := [fldC3] } }

def cfgC3 : DomainScrapeConfig := { sources := [srcC3] }

def docC3 : Elem := Elem.mk "html" [] "" [Elem.mk "p" [] "t" []]

def parseC3 : String → Elem := fun _ => docC3

def htmlLong : String := String.mk (List.replicate 120 'a')

/-- C4 fixture: three seed URLs of which the second fails with HTTP 500. -/
def pageC4 : String := "<p>hi</p>"

def docC4 : Elem := Elem.mk "html" [] "" [Elem.mk "p" [] "hi" []]

def parseC4 : String → Elem := fun _ => docC4

def netC4 : String → Option String :=
  fun u => if u == "u2" then Option.none else Option.some pageC4

def fldC4 : CustomFieldConfig :=
  CustomFieldConfig.mk "f" (Selector.tag "p") "text" Option.none false
    false []

def srcC4 : SourceConfig :=
  { name := "s4", seeds := ["u1", "u2", "u3"], source_type := Option.some "t",
    selectors := { custom_fields := [fldC4] } }

def cfgC4 : DomainScrapeConfig := { sources := [srcC4] }

/-- C9 fixture: two sources whose seeds all succeed. -/
def srcC9a : SourceConfig :=
  { name := "s9a", seeds := ["u1"], source_type := Option.some "t",
    selectors := { custom_fields := [fldC4] } }

def srcC9b : SourceConfig :=
  { name := "s9b", seeds := ["u3"], source_type := Option.some "t",
    selectors := { custom_fields := [fldC4] } }

def cfgC9 : DomainScrapeConfig := { sources := [srcC9a, srcC9b] }

/-- A network oracle for which every fetch succeeds. -/
def netC9all : String → Option String := fun _ => Option.some pageC4

/-- DB fixtures: an item carrying one structured row naming a player. -/
def itemAnn : SDItem :=
  { source_url := "u", source_type := "t", query_used := "q",
    title := Option.none,
    structured_data :=
      [("t", PyVal.list [PyVal.dict [("player", PyVal.str "Ann")]])],
    unstructured_text := Option.none }

def cols5Ann : List (String × PyVal) :=
  [("player_id", PyVal.int 1), ("player_name", PyVal.str "Ann"),
   ("stat_date", PyVal.str "2026-02-03"), ("surface", PyVal.str "all"),
   ("timeframe", PyVal.str "current")]

/-- C8 fixture: a row whose only field is the player name. -/
def itemBea : SDItem :=
  { source_url := "u", source_type := "t", query_used := "q",
    title := Option.none,
    structured_data :=
      [("rows", PyVal.list [PyVal.dict [("player", PyVal.str "Bea")]])],
    unstructured_text := Option.none }

def cols5Bea : List (String × PyVal) :=
  [("player_id", PyVal.int 1), ("player_name", PyVal.str "Bea"),
   ("stat_date", PyVal.str "2026-03-04"), ("surface", PyVal.str "all"),
   ("timeframe", PyVal.str "current")]

/-- C5 fixture: a list-of-strings field precedes the list-of-maps field. -/
def itemTags : SDItem :=
  { source_url := "u", source_type := "t", query_used := "q",
    title := Option.none,
    structured_data :=
      [("tags", PyVal.list [PyVal.str "aa", PyVal.str "bb"]),
       ("table", PyVal.list [PyVal.dict [("player", PyVal.str "Ann")]])],
    unstructured_text := Option.none }

/-- C5 fixture: the same list-of-maps field alone. -/
def itemTableOnly : SDItem :=
  { source_url := "u", source_type := "t", query_used := "q",
    title := Option.none,
    structured_data :=
      [("table", PyVal.list [PyVal.dict [("player", PyVal.str "Ann")]])],
    unstructured_text := Option.none }

/-- C5 witness fixture: an item with no list-valued field at all. -/
def itemNoList : SDItem :=
  { source_url := "u", source_type := "t", query_used := "q",
    title := Option.none,
    structured_data := [("a", PyVal.str "x")],
    unstructured_text := Option.none }

/-! # Theorems -/

/-! ## Dictionary lemmas -/

theorem dictInsert_fresh (d : List (String × PyVal)) (k : String) (v : PyVal)
    (h : d.any (fun kv => kv.1 == k) = false) :
    dictInsert d k v = d ++ [(k, v)] := by
  simp [dictInsert, h]

theorem foldl_dictInsert_eq_append {α : Type} (key : α → String)
    (val : α → PyVal) :
    ∀ (xs : List α) (acc : List (String × PyVal)),
      (xs.map key).Nodup →
      (∀ x ∈ xs, acc.any (fun kv => kv.1 == key x) = false) →
      xs.foldl (fun d x => dictInsert d (key x) (val x)) acc
        = acc ++ xs.map (fun x => (key x, val x)) := by
  intro xs
  induction xs with
  | nil => intro acc _ _; simp
  | cons x xs ih =>
    intro acc hnd hfresh
    have hx : acc.any (fun kv => kv.1 == key x) = false := hfresh x (by simp)
    have hhead : key x ∉ xs.map key := by
      have := hnd
      simp only [List.map_cons, List.nodup_cons] at this
      exact this.1
    have htail : (xs.map key).Nodup := by
      have := hnd
      simp only [List.map_cons, List.nodup_cons] at this
      exact this.2
    simp only [List.foldl_cons]
    rw [dictInsert_fresh _ _ _ hx]
    rw [ih (acc ++ [(key x, val x)]) htail]
    · simp
    · intro y hy
      rw [List.any_append]
      have h1 := hfresh y (List.mem_cons_of_mem _ hy)
      have h2 : (key x == key y) = false := by
        have hne : key x ≠ key y := by
          intro he
          exact hhead (he ▸ List.mem_map_of_mem key hy)
        simpa using hne
      simp [h1, h2]

theorem pyGet_map_eq {α : Type} (key : α → String) (val : α → PyVal) :
    ∀ (xs : List α) (r : α), (xs.map key).Nodup → r ∈ xs →
      pyGet (xs.map (fun x => (key x, val x))) (key r)
        = Option.some (val r) := by
  intro xs
  induction xs with
  | nil => intro r _ hr; cases hr
  | cons x xs ih =>
    intro r hnd hr
    have hhead : key x ∉ xs.map key := by
      have := hnd
      simp only [List.map_cons, List.nodup_cons] at this
      exact this.1
    have htail : (xs.map key).Nodup := by
      have := hnd
      simp only [List.map_cons, List.nodup_cons] at this
      exact this.2
    rcases List.mem_cons.mp hr with hreq | hmem2
    · subst hreq; simp [pyGet, List.find?_cons]
    · have h2 : (key x == key r) = false := by
        have hne : key x ≠ key r := by
          intro he
          exact hhead (he ▸ List.mem_map_of_mem key hmem2)
        simpa using hne
      have := ih r htail hmem2
      simpa [pyGet, List.find?_cons, h2] using this

/-! ## Extractor characterization (claims C1 and C2) -/

theorem extractCustomFields_eq_map (doc : Elem) (cfg : SourceConfig)
    (hnd : (cfg.selectors.custom_fields.map CustomFieldConfig.name).Nodup) :
    extractCustomFields doc cfg
      = cfg.selectors.custom_fields.map
          (fun fc => (fc.name, fieldValue doc fc)) := by
  unfold extractCustomFields
  have hbody :
      (fun (acc : List (String × PyVal)) (fc : CustomFieldConfig) =>
        if fc.extract_type == "structured_list" then
          dictInsert acc fc.name (extractStructuredList doc fc)
        else
          dictInsert acc fc.name (extractSingleField doc fc))
      = fun acc fc => dictInsert acc fc.name (fieldValue doc fc) := by
    funext acc fc
    cases hc : fc.extract_type == "structured_list" <;> simp [fieldValue, hc]
  cases hemp : cfg.selectors.custom_fields.isEmpty
  · simp only [hemp, Bool.false_eq_true, if_false, hbody]
    have := foldl_dictInsert_eq_append CustomFieldConfig.name (fieldValue doc)
      cfg.selectors.custom_fields [] hnd (by intro x _; rfl)
    simpa using this
  · have : cfg.selectors.custom_fields = [] := by
      simpa [List.isEmpty_iff] using hemp
    simp [this]

theorem itemData_eq_rowSpec (c : Elem) (subs : List CustomFieldConfig)
    (hnd : (subs.map CustomFieldConfig.name).Nodup) :
    itemData c subs = rowSpec c subs := by
  unfold itemData rowSpec
  have := foldl_dictInsert_eq_append CustomFieldConfig.name
    (extractSingleField c) subs [] hnd (by intro x _; rfl)
  simpa using this

theorem rowKept_pos_iff (row : List (String × PyVal)) :
    0 < nonEmptyFieldCount row ↔ rowKeptSpec row = true := by
  simp only [nonEmptyFieldCount, rowKeptSpec, List.countP_pos_iff,
    List.any_eq_true, List.mem_map]
  constructor
  · rintro ⟨a, ⟨kv, hkv, rfl⟩, hp⟩
    exact ⟨kv, hkv, hp⟩
  · rintro ⟨kv, hkv, hp⟩
    exact ⟨kv.2, ⟨kv, hkv, rfl⟩, hp⟩

theorem foldl_guard_append {γ : Type} (g : γ → List (String × PyVal)) :
    ∀ (l : List γ) (acc : List PyVal),
      l.foldl
        (fun a c =>
          if 0 < nonEmptyFieldCount (g c) then a ++ [PyVal.dict (g c)] else a)
        acc
      = acc ++ ((l.map g).filter rowKeptSpec).map PyVal.dict := by
  intro l
  induction l with
  | nil => intro acc; simp
  | cons c l ih =>
    intro acc
    simp only [List.foldl_cons, List.map_cons, List.filter_cons]
    cases hk : rowKeptSpec (g c)
    · have hn : ¬ 0 < nonEmptyFieldCount (g c) := by
        rw [rowKept_pos_iff, hk]; simp
      rw [if_neg hn, ih]
      simp [hk]
    · have hp : 0 < nonEmptyFieldCount (g c) := (rowKept_pos_iff _).mpr hk
      rw [if_pos hp, ih]
      simp [hk]

theorem extractStructuredList_eq_spec (doc : Elem) (r : CustomFieldConfig)
    (hnd : (r.sub_selectors.map CustomFieldConfig.name).Nodup) :
    extractStructuredList doc r = structuredListSpec doc r := by
  unfold extractStructuredList structuredListSpec
  have hg : (fun c => itemData c r.sub_selectors)
      = fun c => rowSpec c r.sub_selectors := by
    funext c; exact itemData_eq_rowSpec c r.sub_selectors hnd
  cases hemp : (select doc r.selector).isEmpty
  · simp only [hemp, Bool.false_eq_true, if_false]
    rw [show (fun (a : List PyVal) (container : Elem) =>
          if 0 < nonEmptyFieldCount (itemData container r.sub_selectors) then
            a ++ [PyVal.dict (itemData container r.sub_selectors)]
          else a)
        = fun a c =>
            if 0 < nonEmptyFieldCount ((fun c => itemData c r.sub_selectors) c)
            then a ++ [PyVal.dict ((fun c => itemData c r.sub_selectors) c)]
            else a from rfl]
    rw [foldl_guard_append (fun c => itemData c r.sub_selectors)]
    rw [hg]
    simp
  · have : select doc r.selector = [] := by
      simpa [List.isEmpty_iff] using hemp
    simp [this]

/-- C1 (amended): for every source configuration with distinct field names
    containing a structured_list rule `r` with at least one child rule with
    distinct names, and every document, the extracted value stored under
    `r.name` is the ordered list, over the containers matched by
    `r.selector` in document order, of one map per container with exactly
    the child-rule names as keys, each child resolved only against that
    container's subtree; a container is dropped iff every child value fails
    the non-empty test `v is not None and v != ""` (so a child value `[]`
    KEEPS the container), and the kept containers carry `None` for empty
    non-list children; extraction is total (never raises).  This corrects
    the claim's drop condition: an all-null/empty container whose emptiness
    is an empty list is kept, see
    `structured_list_drop_counterexample`. -/
theorem structuredList_field_characterization (doc : Elem)
    (cfg : SourceConfig) (r : CustomFieldConfig)
    (hmem : r ∈ cfg.selectors.custom_fields)
    (hnd : (cfg.selectors.custom_fields.map CustomFieldConfig.name).Nodup)
    (hty : r.extract_type = "structured_list")
    (_hsubs : r.sub_selectors ≠ [])
    (hsnd : (r.sub_selectors.map CustomFieldConfig.name).Nodup) :
    pyGet (extractCustomFields doc cfg) r.name
      = Option.some (structuredListSpec doc r) := by
  rw [extractCustomFields_eq_map doc cfg hnd]
  rw [pyGet_map_eq CustomFieldConfig.name (fieldValue doc)
    cfg.selectors.custom_fields r hnd hmem]
  have : fieldValue doc r = structuredListSpec doc r := by
    simp [fieldValue, hty, extractStructuredList_eq_spec doc r hsnd]
  rw [this]

/-- C1 counterexample: a container whose only child value is the empty list
    `[]` — null/empty in the claim's sense — is KEPT by the code (the
    non-empty test `v is not None and v != ""` accepts `[]`), where the
    claim as stated requires it to be dropped.  The extracted value is a
    one-row list whose single row is entirely null/empty. -/
theorem structured_list_drop_counterexample :
    pyGet (extractCustomFields docC1x cfgC1x) "table"
      = Option.some (PyVal.list [PyVal.dict [("vals", PyVal.list [])]])
    ∧ ([("vals", PyVal.list [])] : List (String × PyVal)).all
        (fun kv => valueNullOrEmpty kv.2) = true :=
  ⟨rfl, rfl⟩

/-- C1 witness: the scores-table scenario of the specification — three data
    rows and one header row; the amended characterization applies and
    evaluates to exactly the three data rows, header dropped. -/
theorem structuredList_field_characterization_witness :
    rW ∈ cfgW.selectors.custom_fields
    ∧ (cfgW.selectors.custom_fields.map CustomFieldConfig.name).Nodup
    ∧ rW.extract_type = "structured_list"
    ∧ rW.sub_selectors ≠ []
    ∧ (rW.sub_selectors.map CustomFieldConfig.name).Nodup
    ∧ pyGet (extractCustomFields docW cfgW) rW.name
        = Option.some (structuredListSpec docW rW)
    ∧ structuredListSpec docW rW
        = PyVal.list
            [PyVal.dict [("name", PyVal.str "A"), ("score", PyVal.str "1")],
             PyVal.dict [("name", PyVal.str "B"), ("score", PyVal.str "2")],
             PyVal.dict [("name", PyVal.str "C"), ("score", PyVal.str "3")]] :=
  ⟨by simp [cfgW], by decide, rfl, by simp [rW, CustomFieldConfig.sub_selectors],
   by decide,
   structuredList_field_characterization docW cfgW rW (by simp [cfgW])
     (by decide) rfl (by simp [rW, CustomFieldConfig.sub_selectors]) (by decide),
   rfl⟩

/-- C2 (amended): for a non-list rule of kind text, attribute or html, the
    value is null when nothing matches; otherwise every matched element
    yields a candidate (trimmed text / attribute value, an ABSENT attribute
    yielding no candidate / serialized markup), empty candidates are
    discarded, and the value is the FIRST surviving candidate — not
    necessarily a value of the first matched element.  This corrects the
    claim, see `attribute_first_element_counterexample`. -/
theorem single_field_takes_first_nonempty (ctx : Elem)
    (cfg : CustomFieldConfig) (hl : cfg.is_list = false)
    (_hty : cfg.extract_type = "text" ∨ cfg.extract_type = "attribute"
      ∨ cfg.extract_type = "html") :
    extractSingleField ctx cfg = firstMatchValueSpec ctx cfg := by
  unfold extractSingleField firstMatchValueSpec
  have hfun :
      (fun elem =>
        let value : Option String :=
          if cfg.extract_type == "text" then
            Option.some (getTextStrip elem)
          else if cfg.extract_type == "attribute"
              && pyTruthyOpt cfg.attribute_name then
            elem.getAttr (cfg.attribute_name.getD "")
          else if cfg.extract_type == "html" then
            Option.some (Elem.toHtml elem)
          else
            Option.none
        match value with
        | Option.some s => if s != "" then Option.some s else Option.none
        | Option.none => Option.none)
      = nonEmptyCandidate cfg := by
    funext elem
    simp [nonEmptyCandidate, candidateOf]
  rw [hfun]
  cases hsel : select ctx cfg.selector with
  | nil => simp [hl]
  | cons e es => simp only [List.isEmpty_cons, Bool.false_eq_true, if_false, hl]

/-- C2 counterexample: an attribute rule matching two elements, the first
    without the attribute, the second with value `"x"`.  The code returns
    `"x"` (taken from the SECOND element); the claim as stated requires the
    value to come from the first matching element, with an absent attribute
    defaulting to the empty string. -/
theorem attribute_first_element_counterexample :
    extractSingleField docC2x ruleC2attr = PyVal.str "x"
    ∧ (select docC2x ruleC2attr.selector).head? = Option.some elemA1
    ∧ elemA1.getAttr "href" = Option.none
    ∧ PyVal.str "x" ≠ PyVal.str "" :=
  ⟨rfl, rfl, rfl, by simp⟩

/-- C2 witness: the amended first-non-empty rule applied to the concrete
    attribute fixture, evaluating to `"x"`. -/
theorem single_field_takes_first_nonempty_witness :
    ruleC2attr.is_list = false
    ∧ (ruleC2attr.extract_type = "text"
        ∨ ruleC2attr.extract_type = "attribute"
        ∨ ruleC2attr.extract_type = "html")
    ∧ extractSingleField docC2x ruleC2attr = firstMatchValueSpec docC2x ruleC2attr
    ∧ firstMatchValueSpec docC2x ruleC2attr = PyVal.str "x" :=
  ⟨rfl, Or.inr (Or.inl rfl),
   single_field_takes_first_nonempty docC2x ruleC2attr rfl
     (Or.inr (Or.inl rfl)),
   rfl⟩

/-! ## Pipeline lemmas (claims C3, C4, C9, C10) -/

theorem length_filterMap_eq_countP {α β : Type} (f : α → Option β) :
    ∀ l : List α, (l.filterMap f).length = l.countP (fun x => (f x).isSome) := by
  intro l
  induction l with
  | nil => simp
  | cons a l ih =>
    cases h : f a <;>
      simp [List.filterMap_cons, List.countP_cons, h, ih]

theorem countP_filterMap_getD {α β : Type} (f : α → Option β) (p : β → Bool) :
    ∀ l : List α,
      (l.filterMap f).countP p
        = l.countP (fun a => ((f a).map p).getD false) := by
  intro l
  induction l with
  | nil => simp
  | cons a l ih =>
    cases h : f a <;>
      simp [List.filterMap_cons, List.countP_cons, h, ih]

theorem emitItem_isSome (parse : String → Elem)
    (trafi : String → Option String) (src : SourceConfig)
    (url st qu c : String) :
    (emitItem parse trafi
        { source_url := url, content := Option.some c, source_type := st,
          query_used := qu, title := Option.none } src).isSome
      = pageEmits parse src c := by
  unfold emitItem routeAndParse pageEmits
  cases h : c == ""
  · cases hemp : (extractCustomFields (parse c) src).isEmpty <;>
      simp [bne, h, hemp]
  · have hc : c = "" := by simpa using h
    subst hc
    rfl

theorem emitItem_some_structured_data (parse : String → Elem)
    (trafi : String → Option String) (src : SourceConfig)
    (fi : FetchedItem) (it : SDItem) (c : String)
    (hc : fi.content = Option.some c)
    (h : emitItem parse trafi fi src = Option.some it) :
    it.structured_data = extractCustomFields (parse c) src := by
  unfold emitItem routeAndParse at h
  rw [hc] at h
  cases hcc : c == ""
  · simp only [hcc, Bool.false_eq_true, if_false] at h
    cases hemp : (extractCustomFields (parse c) src).isEmpty
    · simp [hemp] at h
      rw [← h]
    · simp [hemp] at h
  · simp [hcc] at h

/-- C3 (amended): an item is emitted for a page iff the extracted
    custom-fields dict is non-empty as a DICT (it has at least one key) —
    regardless of whether any value is non-empty — and an emitted item's
    `structured_data` is exactly the extracted custom fields.  In the
    bypass-fetch entry point this yields one item or none; in the fetching
    pipeline the number of emitted items is the number of successfully
    fetched pages whose custom-fields dict is non-empty, and every emitted
    item carries exactly the custom fields extracted from one successfully
    fetched page.  This corrects the claim's "at least one custom field
    carries a non-empty value", see
    `emit_on_all_null_fields_counterexample`. -/
theorem emission_characterization (parse : String → Elem)
    (trafi : String → Option String) (cb : ProgressCallback)
    (cfg : DomainScrapeConfig) (html : String) (src : SourceConfig)
    (rest : List SourceConfig) (hsrc : cfg.sources = src :: rest)
    (hlen : 100 ≤ (pyStrip html).length) :
    ((runPipelineOnHtml parse trafi cb (Option.some cfg) html).1.length
        = if (extractCustomFields (parse html) src).isEmpty then 0 else 1)
    ∧ (∀ it ∈ (runPipelineOnHtml parse trafi cb (Option.some cfg) html).1,
        it.structured_data = extractCustomFields (parse html) src)
    ∧ (∀ (net : String → Option String) (cfg2 : DomainScrapeConfig)
        (src2 : SourceConfig), cfg2.sources = [src2] →
        (runPipeline parse trafi net cb (Option.some cfg2)).1.length
          = (src2.seeds.filterMap net).countP (pageEmits parse src2))
    ∧ (∀ (net : String → Option String) (cfg2 : DomainScrapeConfig)
        (src2 : SourceConfig), cfg2.sources = [src2] →
        ∀ it ∈ (runPipeline parse trafi net cb (Option.some cfg2)).1,
          ∃ c, c ∈ src2.seeds.filterMap net
            ∧ it.structured_data = extractCustomFields (parse c) src2) := by
  have hne : (html == "") = false := by
    cases h : html == ""
    · rfl
    · exfalso
      have : html = "" := by simpa using h
      rw [this] at hlen
      simp [pyStrip] at hlen
  have hcond : (html == "" || decide ((pyStrip html).length < 100)) = false := by
    simp [hne, Nat.not_lt.mpr hlen]
  refine ⟨?_, ?_, ?_, ?_⟩
  · simp only [runPipelineOnHtml, hsrc, hcond, Bool.false_eq_true, if_false]
    cases hemp : (extractCustomFields (parse html) src).isEmpty <;>
      simp [emitItem, routeAndParse, hne, hemp]
  · intro it hit
    simp only [runPipelineOnHtml, hsrc, hcond, Bool.false_eq_true,
      if_false] at hit
    simp only [emitItem, routeAndParse, hne] at hit
    cases hemp : (extractCustomFields (parse html) src).isEmpty <;>
      simp [hemp] at hit
    rw [hit]
  · intro net cfg2 src2 hsrc2
    simp only [runPipeline, hsrc2, List.foldl_cons, List.foldl_nil]
    cases hseeds : src2.seeds with
    | nil => simp [sourceTasks, hseeds]
    | cons s ss =>
      have htasks : (sourceTasks src2).isEmpty = false := by
        simp [sourceTasks, hseeds]
      simp only [htasks, Bool.false_eq_true, if_false]
      rw [← hseeds]
      simp only [List.nil_append, fetchAll, sourceTasks,
        List.filterMap_map]
      rw [List.filterMap_filterMap, length_filterMap_eq_countP,
        countP_filterMap_getD]
      apply List.countP_congr
      intro s2 _
      cases hn : net s2 <;>
        simp [Function.comp, fetchUrl, hn, emitItem_isSome]
  · intro net cfg2 src2 hsrc2 it hit
    simp only [runPipeline, hsrc2, List.foldl_cons, List.foldl_nil] at hit
    cases hts : (sourceTasks src2).isEmpty
    · simp only [hts, Bool.false_eq_true, if_false, List.nil_append] at hit
      rw [List.mem_filterMap] at hit
      obtain ⟨fi, hfi, hemit⟩ := hit
      unfold fetchAll at hfi
      rw [List.mem_filterMap] at hfi
      obtain ⟨t, ht, hfetch⟩ := hfi
      unfold sourceTasks at ht
      rw [List.mem_map] at ht
      obtain ⟨s, hs, hts2⟩ := ht
      subst hts2
      unfold fetchUrl at hfetch
      cases hn : net s
      · rw [hn] at hfetch
        cases hfetch
      · rw [hn] at hfetch
        have hfi_eq := Option.some.inj hfetch
        refine ⟨_, List.mem_filterMap.mpr ⟨s, hs, hn⟩, ?_⟩
        exact emitItem_some_structured_data parse trafi src2 fi it _
          (by rw [← hfi_eq]) hemit
    · simp [hts] at hit

set_option maxRecDepth 100000 in
/-- C3 counterexample: a 120-character HTML input and a configuration whose
    single rule matches nothing.  Every extracted custom-field value is
    null, yet `run_pipeline_on_html` emits one StructuredDataItem, because
    the source tests only `if parsed_item.custom_fields:` (dict
    non-emptiness), never the values. -/
theorem emit_on_all_null_fields_counterexample :
    (runPipelineOnHtml parseC3 trafiNone cbOk (Option.some cfgC3) htmlLong).1
      = [{ source_url := "https://e.x/", source_type := "tennis",
           query_used := "direct_html_content",
           title := Option.some "Browser Content",
           structured_data := [("f", PyVal.none)],
           unstructured_text := Option.none }]
    ∧ ([("f", PyVal.none)] : List (String × PyVal)).all
        (fun kv => kv.2.isNone) = true :=
  ⟨rfl, rfl⟩

set_option maxRecDepth 100000 in
/-- C3 witness: the amended emission rule applied at the concrete fixture. -/
theorem emission_characterization_witness :
    cfgC3.sources = srcC3 :: []
    ∧ 100 ≤ (pyStrip htmlLong).length
    ∧ (runPipelineOnHtml parseC3 trafiNone cbOk (Option.some cfgC3)
          htmlLong).1.length
        = if (extractCustomFields (parseC3 htmlLong) srcC3).isEmpty then 0
          else 1 :=
  ⟨rfl, by decide,
   (emission_characterization parseC3 trafiNone cbOk cfgC3 htmlLong srcC3 []
      rfl (by decide)).1⟩

/-- C4 (amended): every submitted fetch task yields exactly one outcome —
    a FetchedPage on success, or it is DROPPED from the results with only a
    log line on failure: successes plus failures account for all tasks, the
    run's metrics record NO fetch errors (`metrics.errors` stays empty),
    and `urls_fetched` counts only the successes.  In particular 3 URLs
    with one HTTP 500 yield 2 FetchedPages and 0 entries in
    `metrics.errors`.  This corrects the claim's "error recorded in the
    run's metrics", see `fetch_error_not_recorded_counterexample`. -/
theorem fetch_outcomes_characterization (net : String → Option String) :
    (∀ tasks : List (String × String × String),
      (fetchAll net tasks).length
          + tasks.countP (fun t => (net t.1).isNone) = tasks.length)
    ∧ (∀ (parse : String → Elem) (trafi : String → Option String)
        (cb : ProgressCallback) (cfg : DomainScrapeConfig)
        (src : SourceConfig), cfg.sources = [src] →
        (runPipeline parse trafi net cb (Option.some cfg)).2.errors = []
        ∧ (runPipeline parse trafi net cb (Option.some cfg)).2.urls_fetched
            = src.seeds.countP (fun s => (net s).isSome)) := by
  constructor
  · intro tasks
    induction tasks with
    | nil => simp [fetchAll]
    | cons t ts ih =>
      cases hn : net t.1 <;>
        simp [fetchAll, List.filterMap_cons, fetchUrl, hn,
          List.countP_cons] at ih ⊢ <;>
        omega
  · intro parse trafi cb cfg src hsrc
    constructor
    · simp [runPipeline, hsrc]
    · simp only [runPipeline, hsrc, List.foldl_cons, List.foldl_nil]
      cases hseeds : src.seeds with
      | nil => simp [sourceTasks, hseeds]
      | cons s ss =>
        have htasks : (sourceTasks src).isEmpty = false := by
          simp [sourceTasks, hseeds]
        simp only [htasks, Bool.false_eq_true, if_false]
        rw [← hseeds]
        simp only [fetchAll, sourceTasks, List.filterMap_map]
        rw [length_filterMap_eq_countP, Nat.zero_add]
        apply List.countP_congr
        intro s2 _
        cases hn : net s2 <;> simp [Function.comp, fetchUrl, hn]

/-- C4 counterexample: three seeds of which the second fails.  The code
    yields exactly 2 FetchedPages and `urls_fetched = 2`, but
    `metrics.errors` is EMPTY — the failure was only logged, where the
    claim requires exactly 1 recorded error entry. -/
theorem fetch_error_not_recorded_counterexample :
    (runPipeline parseC4 trafiNone netC4 cbOk (Option.some cfgC4)).2.errors
      = []
    ∧ (runPipeline parseC4 trafiNone netC4 cbOk
        (Option.some cfgC4)).2.urls_fetched = 2
    ∧ (fetchAll netC4 (sourceTasks srcC4)).length = 2
    ∧ (runPipeline parseC4 trafiNone netC4 cbOk (Option.some cfgC4)).1.length
        = 2 :=
  ⟨rfl, rfl, rfl, rfl⟩

/-- C4 witness: the amended accounting applied at the 3-URL fixture. -/
theorem fetch_outcomes_characterization_witness :
    cfgC4.sources = [srcC4]
    ∧ (fetchAll netC4 (sourceTasks srcC4)).length
        + (sourceTasks srcC4).countP (fun t => (netC4 t.1).isNone)
        = (sourceTasks srcC4).length
    ∧ (runPipeline parseC4 trafiNone netC4 cbOk
          (Option.some cfgC4)).2.urls_fetched
        = srcC4.seeds.countP (fun s => (netC4 s).isSome) :=
  ⟨rfl, (fetch_outcomes_characterization netC4).1 (sourceTasks srcC4),
   ((fetch_outcomes_characterization netC4).2 parseC4 trafiNone cbOk cfgC4
      srcC4 rfl).2⟩

/-- C9: cancellation is swallowed, not honoured.  With interruption
    requested from the very start (every progress callback raises
    `UserCancelledError`), the run still processes BOTH sources to
    completion (two items extracted), the pipeline result is identical to
    an uncancelled run — the `try/except` inside `update_progress` swallows
    the cancellation exception at every progress point — and the runner
    then emits NO signal at all (`finished` is suppressed by the
    `if not self._is_interrupted` guard and the `except UserCancelledError`
    branch that would emit the distinguished `error` signal is
    unreachable).  The claim's promised prompt stop and distinguished
    cancelled condition do not exist in the code. -/
theorem cancellation_swallowed :
    (scrapeRunnerRun parseC4 trafiNone netC9all (Option.some cfgC9)
        Option.none true).2 = RunnerSignal.silent
    ∧ ((scrapeRunnerRun parseC4 trafiNone netC9all (Option.some cfgC9)
        Option.none true).1).1.length = 2
    ∧ runPipeline parseC4 trafiNone netC9all (scrapeRunnerCallback true)
        (Option.some cfgC9)
      = runPipeline parseC4 trafiNone netC9all (scrapeRunnerCallback false)
        (Option.some cfgC9) :=
  ⟨rfl, rfl, rfl⟩

/-- C10: the bypass-fetch entry point refuses HTML shorter than 100
    stripped characters with exactly the error
    "HTML content is empty or too short." and an empty item list, without
    attempting extraction; and for stripped length at least 100 (with a
    loaded config and a source) no such error is recorded — extraction
    proceeds. -/
theorem html_length_gate (parse : String → Elem)
    (trafi : String → Option String) (cb : ProgressCallback)
    (cfg : DomainScrapeConfig) (html : String) :
    ((pyStrip html).length < 100 →
      runPipelineOnHtml parse trafi cb (Option.some cfg) html
        = ([], { urls_fetched := 1, items_extracted := 0,
                 errors := ["HTML content is empty or too short."] }))
    ∧ (∀ (src : SourceConfig) (rest : List SourceConfig),
        cfg.sources = src :: rest → 100 ≤ (pyStrip html).length →
        (runPipelineOnHtml parse trafi cb (Option.some cfg) html).2.errors
          = []) := by
  constructor
  · intro h
    have hcond : (html == "" || decide ((pyStrip html).length < 100))
        = true := by simp [h]
    simp [runPipelineOnHtml, hcond]
  · intro src rest hsrc hlen
    have hne : (html == "") = false := by
      cases h : html == ""
      · rfl
      · exfalso
        have : html = "" := by simpa using h
        rw [this] at hlen
        simp [pyStrip] at hlen
    have hcond : (html == "" || decide ((pyStrip html).length < 100))
        = false := by simp [hne, Nat.not_lt.mpr hlen]
    simp only [runPipelineOnHtml, hsrc, hcond, Bool.false_eq_true, if_false]

set_option maxRecDepth 100000 in
/-- C10 witness: a 9-character input is refused with the exact error; the
    120-character fixture passes the gate and records no error. -/
theorem html_length_gate_witness :
    (pyStrip "<p>hi</p>").length < 100
    ∧ runPipelineOnHtml parseC3 trafiNone cbOk (Option.some cfgC3) "<p>hi</p>"
        = ([], { urls_fetched := 1, items_extracted := 0,
                 errors := ["HTML content is empty or too short."] })
    ∧ cfgC3.sources = srcC3 :: []
    ∧ 100 ≤ (pyStrip htmlLong).length
    ∧ (runPipelineOnHtml parseC3 trafiNone cbOk (Option.some cfgC3)
        htmlLong).2.errors = [] :=
  ⟨by decide,
   (html_length_gate parseC3 trafiNone cbOk cfgC3 "<p>hi</p>").1 (by decide),
   rfl, by decide,
   (html_length_gate parseC3 trafiNone cbOk cfgC3 htmlLong).2 srcC3 [] rfl
     (by decide)⟩

/-! ## Sink lemmas (claims C5, C6, C7, C8) -/

theorem findMainList_eq_find? :
    ∀ d : List (String × PyVal),
      findMainList d
        = (d.find? (fun kv => pyIsNonEmptyList kv.2)).map
            (fun kv => pyListElems kv.2) := by
  intro d
  induction d with
  | nil => rfl
  | cons kv rest ih =>
    rcases kv with ⟨k, v⟩
    cases v with
    | list xs =>
        cases hx : xs.isEmpty
        · simp [findMainList, List.find?_cons, pyIsNonEmptyList,
            pyListElems, hx]
        · simp [findMainList, List.find?_cons, pyIsNonEmptyList,
            pyListElems, hx, ih]
    | none => simp [findMainList, List.find?_cons, pyIsNonEmptyList, ih]
    | str s => simp [findMainList, List.find?_cons, pyIsNonEmptyList, ih]
    | int n => simp [findMainList, List.find?_cons, pyIsNonEmptyList, ih]
    | float q => simp [findMainList, List.find?_cons, pyIsNonEmptyList, ih]
    | dict kvs => simp [findMainList, List.find?_cons, pyIsNonEmptyList, ih]

/-- C5 (amended): the row list the sink processes for an item is the FIRST
    field of `structuredData` whose value is a non-empty LIST — of anything,
    not necessarily of maps (non-map elements are then skipped row by row) —
    and an item with no such field is skipped without affecting the
    processing of the other items of the batch.  This corrects the claim's
    "non-empty list of maps", see `rowlist_selection_counterexample`. -/
theorem rowlist_selection_characterization (st : DBState) (today : String)
    (item : SDItem) (items : List SDItem) :
    findMainList item.structured_data
      = (item.structured_data.find? (fun kv => pyIsNonEmptyList kv.2)).map
          (fun kv => pyListElems kv.2)
    ∧ (findMainList item.structured_data = Option.none →
        insertPlayerStats st today (item :: items)
          = insertPlayerStats st today items) := by
  refine ⟨findMainList_eq_find? _, ?_⟩
  intro h
  simp [insertPlayerStats, List.foldl_cons, processItem, h]

/-- C5 counterexample: `structuredData` holds a list of strings under
    "tags" BEFORE a non-empty list of maps under "table".  The claim's row
    list is the "table" list (first list-of-maps field) and processing it
    inserts one row — but the code picks "tags" (first non-empty list of
    ANY element type), skips both string rows as non-dicts, and inserts
    nothing at all. -/
theorem rowlist_selection_counterexample :
    (insertPlayerStats dbInit "2026-02-03" [itemTags]).stats = []
    ∧ (insertPlayerStats dbInit "2026-02-03" [itemTags]).players = []
    ∧ firstListOfMapsField itemTags.structured_data
        = Option.some
            ("table", PyVal.list [PyVal.dict [("player", PyVal.str "Ann")]])
    ∧ (insertPlayerStats dbInit "2026-02-03" [itemTableOnly]).stats.length
        = 1 :=
  ⟨rfl, rfl, rfl, rfl⟩

/-- C5 witness: an item with no list-valued field is skipped and the rest
    of the batch is processed unchanged. -/
theorem rowlist_selection_characterization_witness :
    findMainList itemNoList.structured_data = Option.none
    ∧ insertPlayerStats dbInit "2026-02-03" (itemNoList :: [itemAnn])
        = insertPlayerStats dbInit "2026-02-03" [itemAnn] :=
  ⟨rfl,
   (rowlist_selection_characterization dbInit "2026-02-03" itemNoList
      [itemAnn]).2 rfl⟩

/-- C7 counterexample: inserting one item whose single row names a new
    player.  The call's event log shows TWO commits — one issued by
    `get_or_create_player` immediately after creating the player, in the
    middle of the batch, and the final one — where the claim requires a
    single commit at the end of the call. -/
theorem single_transaction_counterexample :
    (insertPlayerStats dbInit "2026-02-03" [itemAnn]).log
      = [DBEvent.insertPlayer "Ann", DBEvent.commit,
         DBEvent.insertStats 1 cols5Ann, DBEvent.commit]
    ∧ countCommits (insertPlayerStats dbInit "2026-02-03" [itemAnn]).log
        = 2 :=
  ⟨rfl, rfl⟩

theorem map_overwrite_filter_notin (k : String) (v : PyVal)
    (hk : baseKeys.contains k = false) :
    ∀ d : List (String × PyVal),
      (d.map (fun kv => if kv.1 == k then (k, v) else kv)).filter
          (fun kv => baseKeys.contains kv.1)
        = d.filter (fun kv => baseKeys.contains kv.1) := by
  intro d
  induction d with
  | nil => rfl
  | cons kv rest ih =>
    cases hek : kv.1 == k
    · simp only [List.map_cons, hek, Bool.false_eq_true, if_false,
        List.filter_cons, ih]
    · have hkk : kv.1 = k := by simpa using hek
      simp only [List.map_cons, hek, if_true, hkk, List.filter_cons,
        beq_self_eq_true, hk, Bool.false_eq_true, if_false]
      exact ih

theorem dictInsert_filter_notin (d : List (String × PyVal)) (k : String)
    (v : PyVal) (hk : baseKeys.contains k = false) :
    (dictInsert d k v).filter (fun kv => baseKeys.contains kv.1)
      = d.filter (fun kv => baseKeys.contains kv.1) := by
  unfold dictInsert
  cases hany : d.any (fun kv => kv.1 == k)
  · have hk' : k ∉ baseKeys := by simpa using hk
    simp only [hany, Bool.false_eq_true, if_false, List.filter_append]
    simp [hk']
  · simp only [hany, if_true]
    exact map_overwrite_filter_notin k v hk d

theorem fold_mapping_filter_base (rd : List (String × PyVal)) :
    ∀ (ms : List (String × String)) (acc : List (String × PyVal)),
      (∀ sd ∈ ms, baseKeys.contains sd.2 = false) →
      ((ms.foldl
          (fun acc sfdf =>
            match pyGet rd sfdf.1 with
            | Option.some v => dictInsert acc sfdf.2 (mappedVal sfdf.2 v)
            | Option.none => acc)
          acc).filter (fun kv => baseKeys.contains kv.1))
        = acc.filter (fun kv => baseKeys.contains kv.1) := by
  intro ms
  induction ms with
  | nil => intro acc _; rfl
  | cons m ms ih =>
    intro acc hnotin
    simp only [List.foldl_cons]
    cases hg : pyGet rd m.1
    · simp only [hg]
      exact ih acc (fun sd hsd => hnotin sd (List.mem_cons_of_mem _ hsd))
    · simp only [hg]
      rw [ih _ (fun sd hsd => hnotin sd (List.mem_cons_of_mem _ hsd))]
      exact dictInsert_filter_notin acc m.2 _ (hnotin m (by simp))

/-- The five base columns always survive into `data_to_insert`. -/
theorem buildCols_filter_base (pid : Nat) (pname today : String)
    (rd : List (String × PyVal)) :
    (buildCols pid pname today rd).filter (fun kv => baseKeys.contains kv.1)
      = [("player_id", PyVal.int (pid : Int)), ("player_name", PyVal.str pname),
         ("stat_date", PyVal.str today), ("surface", PyVal.str "all"),
         ("timeframe", PyVal.str "current")] := by
  unfold buildCols
  rw [List.filter_filter]
  have hcomm :
      (List.filter
        (fun kv => baseKeys.contains kv.1 && !kv.2.isNone)
        (fieldMapping.foldl
          (fun acc sfdf =>
            match pyGet rd sfdf.1 with
            | Option.some v => dictInsert acc sfdf.2 (mappedVal sfdf.2 v)
            | Option.none => acc)
          [("player_id", PyVal.int (pid : Int)),
           ("player_name", PyVal.str pname), ("stat_date", PyVal.str today),
           ("surface", PyVal.str "all"), ("timeframe", PyVal.str "current")]))
      = List.filter (fun kv => !kv.2.isNone)
          (List.filter (fun kv => baseKeys.contains kv.1)
            (fieldMapping.foldl
              (fun acc sfdf =>
                match pyGet rd sfdf.1 with
                | Option.some v => dictInsert acc sfdf.2 (mappedVal sfdf.2 v)
                | Option.none => acc)
              [("player_id", PyVal.int (pid : Int)),
               ("player_name", PyVal.str pname),
               ("stat_date", PyVal.str today), ("surface", PyVal.str "all"),
               ("timeframe", PyVal.str "current")])) := by
    rw [List.filter_filter]
    apply List.filter_congr
    intro kv _
    cases hb : baseKeys.contains kv.1 <;> cases hn : kv.2.isNone <;> simp [hb, hn]
  rw [hcomm, fold_mapping_filter_base rd fieldMapping _ (by decide)]
  rfl

/-- C8: the "not enough data" skip is dead code.  `data_to_insert` always
    contains the five base columns (player_id, player_name, stat_date,
    surface, timeframe), so its size is always at least 5 and the
    `len(data_to_insert) <= 4` skip can never fire; consequently a row
    carrying NOTHING beyond the entity name IS inserted (with only the base
    columns) where the claim — and the source's own
    "# Only basic fields" comment — expect it to be skipped as "not enough
    data". -/
theorem min_column_skip_never_fires :
    (∀ (pid : Nat) (pname today : String) (rd : List (String × PyVal)),
      4 < (buildCols pid pname today rd).length)
    ∧ (insertPlayerStats dbInit "2026-03-04" [itemBea]).stats
        = [{ playerId := 1, statDate := "2026-03-04", surface := "all",
             timeframe := "current", cols := cols5Bea }] := by
  constructor
  · intro pid pname today rd
    have h5 := buildCols_filter_base pid pname today rd
    have hle := List.length_filter_le (fun kv => baseKeys.contains kv.1)
      (buildCols pid pname today rd)
    rw [h5] at hle
    simpa using Nat.lt_of_lt_of_le (by norm_num) hle
  · rfl

theorem foldl_processRow_components (today : String) :
    ∀ (rows : List PyVal) (st : DBState),
      (rows.foldl (processRow today) st).players
          = (rowsActions today st.players st.nextId rows).1
      ∧ (rows.foldl (processRow today) st).nextId
          = (rowsActions today st.players st.nextId rows).2.1
      ∧ (rows.foldl (processRow today) st).stats
          = applyUps st.stats (rowsActions today st.players st.nextId rows).2.2 := by
  intro rows
  induction rows with
  | nil => intro st; exact ⟨rfl, rfl, rfl⟩
  | cons row rest ih =>
    intro st
    simp only [List.foldl_cons]
    cases hk : rowKey row with
    | none =>
      have hpr : processRow today st row = st := by simp [processRow, hk]
      have hra : rowsActions today st.players st.nextId (row :: rest)
          = rowsActions today st.players st.nextId rest := by
        simp [rowsActions, hk]
      rw [hpr, hra]
      exact ih st
    | some pr =>
      rcases pr with ⟨n, rd⟩
      cases hf : findP st.players n with
      | some p =>
        have hg : getOrCreatePlayer st n = (p.1, st) := by
          have hf' := hf
          simp only [findP] at hf'
          simp [getOrCreatePlayer, hf']
        by_cases hc : (buildCols p.1 n today rd).length ≤ 4
        · have hpr : processRow today st row = st := by
            simp [processRow, hk, hg, hc]
          have hra : rowsActions today st.players st.nextId (row :: rest)
              = rowsActions today st.players st.nextId rest := by
            simp [rowsActions, hk, hf, hc]
          rw [hpr, hra]
          exact ih st
        · have hpr : processRow today st row
              = { players := st.players, nextId := st.nextId,
                  stats := upsertStats st.stats
                    { playerId := p.1, statDate := today, surface := "all",
                      timeframe := "current",
                      cols := buildCols p.1 n today rd },
                  log := st.log
                    ++ [DBEvent.insertStats p.1 (buildCols p.1 n today rd)] } := by
            simp [processRow, hk, hg, hc]
          have hra : rowsActions today st.players st.nextId (row :: rest)
              = ((rowsActions today st.players st.nextId rest).1,
                 (rowsActions today st.players st.nextId rest).2.1,
                 { playerId := p.1, statDate := today, surface := "all",
                   timeframe := "current",
                   cols := buildCols p.1 n today rd }
                   :: (rowsActions today st.players st.nextId rest).2.2) := by
            simp [rowsActions, hk, hf, hc]
          rw [hpr, hra]
          exact ih _
      | none =>
        have hg : getOrCreatePlayer st n
            = (st.nextId,
               { players := st.players ++ [(st.nextId, n)],
                 nextId := st.nextId + 1, stats := st.stats,
                 log := st.log
                   ++ [DBEvent.insertPlayer n, DBEvent.commit] }) := by
          have hf' := hf
          simp only [findP] at hf'
          simp [getOrCreatePlayer, hf']
        by_cases hc : (buildCols st.nextId n today rd).length ≤ 4
        · have hpr : processRow today st row
              = { players := st.players ++ [(st.nextId, n)],
                  nextId := st.nextId + 1, stats := st.stats,
                  log := st.log
                    ++ [DBEvent.insertPlayer n, DBEvent.commit] } := by
            simp [processRow, hk, hg, hc]
          have hra : rowsActions today st.players st.nextId (row :: rest)
              = rowsActions today (st.players ++ [(st.nextId, n)])
                  (st.nextId + 1) rest := by
            simp [rowsActions, hk, hf, hc]
          rw [hpr, hra]
          exact ih _
        · have hpr : processRow today st row
              = { players := st.players ++ [(st.nextId, n)],
                  nextId := st.nextId + 1,
                  stats := upsertStats st.stats
                    { playerId := st.nextId, statDate := today,
                      surface := "all", timeframe := "current",
                      cols := buildCols st.nextId n today rd },
                  log := (st.log ++ [DBEvent.insertPlayer n, DBEvent.commit])
                    ++ [DBEvent.insertStats st.nextId
                        (buildCols st.nextId n today rd)] } := by
            simp [processRow, hk, hg, hc]
          have hra : rowsActions today st.players st.nextId (row :: rest)
              = ((rowsActions today (st.players ++ [(st.nextId, n)])
                    (st.nextId + 1) rest).1,
                 (rowsActions today (st.players ++ [(st.nextId, n)])
                    (st.nextId + 1) rest).2.1,
                 { playerId := st.nextId, statDate := today, surface := "all",
                   timeframe := "current",
                   cols := buildCols st.nextId n today rd }
                   :: (rowsActions today (st.players ++ [(st.nextId, n)])
                        (st.nextId + 1) rest).2.2) := by
            simp [rowsActions, hk, hf, hc]
          rw [hpr, hra]
          exact ih _

theorem findP_append_some (ps qs : Players) (n : String) (p : Nat × String)
    (h : findP ps n = Option.some p) :
    findP (ps ++ qs) n = Option.some p := by
  simp only [findP] at h ⊢
  rw [List.find?_append, h]
  rfl

theorem findP_rowsActions (today : String) :
    ∀ (rows : List PyVal) (ps : Players) (nid : Nat) (n : String)
      (p : Nat × String), findP ps n = Option.some p →
      findP (rowsActions today ps nid rows).1 n = Option.some p := by
  intro rows
  induction rows with
  | nil => intro ps nid n p h; exact h
  | cons row rest ih =>
    intro ps nid n p h
    cases hk : rowKey row with
    | none =>
      simp only [rowsActions, hk]
      exact ih ps nid n p h
    | some pr =>
      rcases pr with ⟨n', rd⟩
      cases hf : findP ps n' with
      | some q =>
        simp only [rowsActions, hk, hf]
        by_cases hc : (buildCols q.1 n' today rd).length ≤ 4
        · rw [if_pos hc]; exact ih ps nid n p h
        · rw [if_neg hc]; exact ih ps nid n p h
      | none =>
        simp only [rowsActions, hk, hf]
        by_cases hc : (buildCols nid n' today rd).length ≤ 4
        · rw [if_pos hc]
          exact ih (ps ++ [(nid, n')]) (nid + 1) n p
            (findP_append_some ps [(nid, n')] n p h)
        · rw [if_neg hc]
          exact ih (ps ++ [(nid, n')]) (nid + 1) n p
            (findP_append_some ps [(nid, n')] n p h)

theorem rowsActions_replay (today : String) :
    ∀ (rows : List PyVal) (ps : Players) (nid : Nat),
      rowsActions today (rowsActions today ps nid rows).1
        (rowsActions today ps nid rows).2.1 rows
      = rowsActions today ps nid rows := by
  intro rows
  induction rows with
  | nil => intro ps nid; rfl
  | cons row rest ih =>
    intro ps nid
    cases hk : rowKey row with
    | none =>
      simp only [rowsActions, hk]
      exact ih ps nid
    | some pr =>
      rcases pr with ⟨n, rd⟩
      cases hf : findP ps n with
      | some p =>
        have hr1 : findP (rowsActions today ps nid rest).1 n = Option.some p :=
          findP_rowsActions today rest ps nid n p hf
        by_cases hc : (buildCols p.1 n today rd).length ≤ 4
        · simp only [rowsActions, hk, hf, if_pos hc]
          simp only [rowsActions, hk, hr1, if_pos hc]
          exact ih ps nid
        · simp only [rowsActions, hk, hf, if_neg hc]
          simp only [rowsActions, hk, hr1, if_neg hc]
          rw [ih ps nid]
      | none =>
        have hsingle : findP (ps ++ [(nid, n)]) n = Option.some (nid, n) := by
          simp only [findP] at hf ⊢
          rw [List.find?_append, hf]
          simp
        have hr1 : findP (rowsActions today (ps ++ [(nid, n)]) (nid + 1)
              rest).1 n = Option.some (nid, n) :=
          findP_rowsActions today rest _ _ n _ hsingle
        by_cases hc : (buildCols nid n today rd).length ≤ 4
        · simp only [rowsActions, hk, hf, if_pos hc]
          simp only [rowsActions, hk, hr1, if_pos hc]
          exact ih _ _
        · simp only [rowsActions, hk, hf, if_neg hc]
          simp only [rowsActions, hk, hr1, if_neg hc]
          rw [ih _ _]

theorem applyUps_filter_decomp :
    ∀ (L S : List StatsRow),
      applyUps S L
        = S.filter (fun q => L.all (fun a => !q.sameKey a)) ++ applyUps [] L := by
  intro L
  induction L with
  | nil => intro S; simp [applyUps]
  | cons a L ih =>
    intro S
    show applyUps (upsertStats S a) L = _
    rw [ih (upsertStats S a)]
    have hrhs : applyUps [] (a :: L)
        = [a].filter (fun q => L.all (fun b => !q.sameKey b))
            ++ applyUps [] L := by
      show applyUps (upsertStats [] a) L = _
      rw [show upsertStats [] a = [a] from rfl]
      exact ih [a]
    rw [hrhs]
    unfold upsertStats
    rw [List.filter_append, List.filter_filter]
    have hcongr :
        List.filter
            (fun x => L.all (fun b => !x.sameKey b) && !x.sameKey a) S
          = List.filter (fun q => (a :: L).all (fun b => !q.sameKey b)) S := by
      apply List.filter_congr
      intro x _
      simp [List.all_cons, Bool.and_comm]
    rw [hcongr, List.append_assoc]

theorem mem_applyUps :
    ∀ (L S : List StatsRow) (q : StatsRow),
      q ∈ applyUps S L → q ∈ S ∨ q ∈ L := by
  intro L
  induction L with
  | nil => intro S q h; exact Or.inl h
  | cons a L ih =>
    intro S q h
    rcases ih (upsertStats S a) q h with h1 | h2
    · unfold upsertStats at h1
      rcases List.mem_append.mp h1 with h3 | h4
      · exact Or.inl (List.mem_of_mem_filter h3)
      · have : q = a := by simpa using h4
        exact Or.inr (this ▸ List.mem_cons_self a L)
    · exact Or.inr (List.mem_cons_of_mem _ h2)

theorem sameKey_refl (q : StatsRow) : q.sameKey q = true := by
  simp [StatsRow.sameKey]

theorem applyUps_idem (L S : List StatsRow) :
    applyUps (applyUps S L) L = applyUps S L := by
  rw [applyUps_filter_decomp L (applyUps S L)]
  rw [applyUps_filter_decomp L S]
  rw [List.filter_append]
  have h1 : (S.filter (fun q => L.all (fun a => !q.sameKey a))).filter
        (fun q => L.all (fun a => !q.sameKey a))
      = S.filter (fun q => L.all (fun a => !q.sameKey a)) := by
    rw [List.filter_filter]
    apply List.filter_congr
    intro x _
    exact Bool.and_self _
  have h2 : (applyUps [] L).filter (fun q => L.all (fun a => !q.sameKey a))
      = [] := by
    rw [List.filter_eq_nil_iff]
    intro q hq
    have hqL : q ∈ L := by
      rcases mem_applyUps L [] q hq with h | h
      · cases h
      · exact h
    intro hall
    rw [List.all_eq_true] at hall
    have := hall q hqL
    rw [sameKey_refl] at this
    simp at this
  rw [h1, h2]
  simp

theorem foldl_processItem_eq_rows (today : String) :
    ∀ (items : List SDItem) (st : DBState),
      items.foldl (processItem today) st
        = (flatRows items).foldl (processRow today) st := by
  intro items
  induction items with
  | nil => intro st; rfl
  | cons it its ih =>
    intro st
    have hflat : flatRows (it :: its) = itemRows it ++ flatRows its := by
      simp [flatRows]
    have hpi : processItem today st it
        = (itemRows it).foldl (processRow today) st := by
      unfold processItem itemRows
      cases hm : findMainList it.structured_data <;> simp [hm]
    simp only [List.foldl_cons, hflat, List.foldl_append]
    rw [hpi]
    exact ih _

/-- C6: upsert idempotence.  Running `insert_player_stats` twice on the
    same item list (same entities, same date) against any store leaves the
    statistics table EXACTLY as a single run leaves it — in particular with
    the same number of rows — and creates no new players: the second run
    replays the same `(player_id, stat_date, surface, timeframe)`-keyed
    `INSERT OR REPLACE` actions, which overwrite instead of duplicating. -/
theorem upsert_idempotence (st : DBState) (today : String)
    (items : List SDItem) :
    (insertPlayerStats (insertPlayerStats st today items) today items).stats
      = (insertPlayerStats st today items).stats
    ∧ (insertPlayerStats (insertPlayerStats st today items) today
        items).players
      = (insertPlayerStats st today items).players
    ∧ (insertPlayerStats (insertPlayerStats st today items) today
        items).stats.length
      = (insertPlayerStats st today items).stats.length := by
  have hfields : ∀ s : DBState,
      (insertPlayerStats s today items).players
          = ((flatRows items).foldl (processRow today) s).players
      ∧ (insertPlayerStats s today items).nextId
          = ((flatRows items).foldl (processRow today) s).nextId
      ∧ (insertPlayerStats s today items).stats
          = ((flatRows items).foldl (processRow today) s).stats := by
    intro s
    unfold insertPlayerStats
    rw [foldl_processItem_eq_rows]
    exact ⟨rfl, rfl, rfl⟩
  obtain ⟨f1p, f1n, f1s⟩ := hfields st
  obtain ⟨c1p, c1n, c1s⟩ := foldl_processRow_components today (flatRows items) st
  obtain ⟨f2p, f2n, f2s⟩ := hfields (insertPlayerStats st today items)
  obtain ⟨c2p, c2n, c2s⟩ :=
    foldl_processRow_components today (flatRows items)
      (insertPlayerStats st today items)
  have hp1 : (insertPlayerStats st today items).players
      = (rowsActions today st.players st.nextId (flatRows items)).1 := by
    rw [f1p, c1p]
  have hn1 : (insertPlayerStats st today items).nextId
      = (rowsActions today st.players st.nextId (flatRows items)).2.1 := by
    rw [f1n, c1n]
  have hs1 : (insertPlayerStats st today items).stats
      = applyUps st.stats
          (rowsActions today st.players st.nextId (flatRows items)).2.2 := by
    rw [f1s, c1s]
  have hreplay :
      rowsActions today (insertPlayerStats st today items).players
        (insertPlayerStats st today items).nextId (flatRows items)
      = rowsActions today st.players st.nextId (flatRows items) := by
    rw [hp1, hn1]
    exact rowsActions_replay today (flatRows items) st.players st.nextId
  have hp2 : (insertPlayerStats (insertPlayerStats st today items) today
        items).players
      = (rowsActions today st.players st.nextId (flatRows items)).1 := by
    rw [f2p, c2p, hreplay]
  have hs2 : (insertPlayerStats (insertPlayerStats st today items) today
        items).stats
      = applyUps st.stats
          (rowsActions today st.players st.nextId (flatRows items)).2.2 := by
    rw [f2s, c2s, hreplay, hs1]
    exact applyUps_idem _ _
  refine ⟨?_, ?_, ?_⟩
  · rw [hs2, hs1]
  · rw [hp2, hp1]
  · rw [hs2, hs1]

theorem countCommits_append (a b : List DBEvent) :
    countCommits (a ++ b) = countCommits a + countCommits b := by
  simp [countCommits, List.filter_append]

theorem log_commits (today : String) :
    ∀ (rows : List PyVal) (st : DBState),
      ∃ δ : List DBEvent,
        (rows.foldl (processRow today) st).log = st.log ++ δ
        ∧ (rows.foldl (processRow today) st).players.length
            = st.players.length + countCommits δ := by
  intro rows
  induction rows with
  | nil => intro st; exact ⟨[], by simp, by simp [countCommits]⟩
  | cons row rest ih =>
    intro st
    simp only [List.foldl_cons]
    cases hk : rowKey row with
    | none =>
      have hpr : processRow today st row = st := by simp [processRow, hk]
      rw [hpr]
      exact ih st
    | some pr =>
      rcases pr with ⟨n, rd⟩
      cases hf : findP st.players n with
      | some p =>
        have hg : getOrCreatePlayer st n = (p.1, st) := by
          have hf' := hf
          simp only [findP] at hf'
          simp [getOrCreatePlayer, hf']
        by_cases hc : (buildCols p.1 n today rd).length ≤ 4
        · have hpr : processRow today st row = st := by
            simp [processRow, hk, hg, hc]
          rw [hpr]
          exact ih st
        · have hpr : processRow today st row
              = { players := st.players, nextId := st.nextId,
                  stats := upsertStats st.stats
                    { playerId := p.1, statDate := today, surface := "all",
                      timeframe := "current",
                      cols := buildCols p.1 n today rd },
                  log := st.log
                    ++ [DBEvent.insertStats p.1 (buildCols p.1 n today rd)] } := by
            simp [processRow, hk, hg, hc]
          rw [hpr]
          obtain ⟨δ, hlog, hcnt⟩ := ih
            { players := st.players, nextId := st.nextId,
              stats := upsertStats st.stats
                { playerId := p.1, statDate := today, surface := "all",
                  timeframe := "current", cols := buildCols p.1 n today rd },
              log := st.log
                ++ [DBEvent.insertStats p.1 (buildCols p.1 n today rd)] }
          refine ⟨[DBEvent.insertStats p.1 (buildCols p.1 n today rd)] ++ δ,
            ?_, ?_⟩
          · rw [hlog]
            simp
          · rw [hcnt]
            simp [countCommits_append, countCommits, isCommitEvt]
      | none =>
        have hg : getOrCreatePlayer st n
            = (st.nextId,
               { players := st.players ++ [(st.nextId, n)],
                 nextId := st.nextId + 1, stats := st.stats,
                 log := st.log
                   ++ [DBEvent.insertPlayer n, DBEvent.commit] }) := by
          have hf' := hf
          simp only [findP] at hf'
          simp [getOrCreatePlayer, hf']
        by_cases hc : (buildCols st.nextId n today rd).length ≤ 4
        · have hpr : processRow today st row
              = { players := st.players ++ [(st.nextId, n)],
                  nextId := st.nextId + 1, stats := st.stats,
                  log := st.log
                    ++ [DBEvent.insertPlayer n, DBEvent.commit] } := by
            simp [processRow, hk, hg, hc]
          rw [hpr]
          obtain ⟨δ, hlog, hcnt⟩ := ih
            { players := st.players ++ [(st.nextId, n)],
              nextId := st.nextId + 1, stats := st.stats,
              log := st.log ++ [DBEvent.insertPlayer n, DBEvent.commit] }
          refine ⟨[DBEvent.insertPlayer n, DBEvent.commit] ++ δ, ?_, ?_⟩
          · rw [hlog]
            simp
          · rw [hcnt]
            simp [countCommits_append, countCommits, isCommitEvt]
            omega
        · have hpr : processRow today st row
              = { players := st.players ++ [(st.nextId, n)],
                  nextId := st.nextId + 1,
                  stats := upsertStats st.stats
                    { playerId := st.nextId, statDate := today,
                      surface := "all", timeframe := "current",
                      cols := buildCols st.nextId n today rd },
                  log := (st.log ++ [DBEvent.insertPlayer n, DBEvent.commit])
                    ++ [DBEvent.insertStats st.nextId
                        (buildCols st.nextId n today rd)] } := by
            simp [processRow, hk, hg, hc]
          rw [hpr]
          obtain ⟨δ, hlog, hcnt⟩ := ih
            { players := st.players ++ [(st.nextId, n)],
              nextId := st.nextId + 1,
              stats := upsertStats st.stats
                { playerId := st.nextId, statDate := today, surface := "all",
                  timeframe := "current",
                  cols := buildCols st.nextId n today rd },
              log := (st.log ++ [DBEvent.insertPlayer n, DBEvent.commit])
                ++ [DBEvent.insertStats st.nextId
                    (buildCols st.nextId n today rd)] }
          refine ⟨[DBEvent.insertPlayer n, DBEvent.commit,
            DBEvent.insertStats st.nextId (buildCols st.nextId n today rd)]
              ++ δ, ?_, ?_⟩
          · rw [hlog]
            simp
          · rw [hcnt]
            simp [countCommits_append, countCommits, isCommitEvt]
            omega

/-- C7 (amended): within one `insert_player_stats` call, the statistics-row
    inserts share the single final commit — the log added by the call ends
    with a commit — but `get_or_create_player` issues one additional commit
    immediately for EVERY player it creates, mid-batch: the call commits
    exactly (number of newly created players) + 1 times, not once.  This
    corrects the claim's "committed exactly once, at the end", see
    `single_transaction_counterexample`. -/
theorem commit_accounting (st : DBState) (today : String)
    (items : List SDItem) :
    (insertPlayerStats st today items).log
      = st.log ++ (insertPlayerStats st today items).log.drop st.log.length
    ∧ countCommits
        ((insertPlayerStats st today items).log.drop st.log.length)
        + st.players.length
      = (insertPlayerStats st today items).players.length + 1
    ∧ ((insertPlayerStats st today items).log.drop st.log.length).getLast?
      = Option.some DBEvent.commit := by
  obtain ⟨δ, hlog, hcnt⟩ := log_commits today (flatRows items) st
  have hfull : (insertPlayerStats st today items).log
      = st.log ++ (δ ++ [DBEvent.commit]) := by
    unfold insertPlayerStats
    rw [foldl_processItem_eq_rows]
    simp only [hlog]
    simp
  have hplayers : (insertPlayerStats st today items).players
      = ((flatRows items).foldl (processRow today) st).players := by
    unfold insertPlayerStats
    rw [foldl_processItem_eq_rows]
  have hdrop : (insertPlayerStats st today items).log.drop st.log.length
      = δ ++ [DBEvent.commit] := by
    rw [hfull]
    exact List.drop_left _ _
  refine ⟨?_, ?_, ?_⟩
  · rw [hdrop, hfull]
  · rw [hdrop, hplayers, hcnt, countCommits_append]
    simp [countCommits, isCommitEvt]
    omega
  · rw [hdrop]
    exact List.getLast?_concat _
